import Mathlib

/-!
# Verification of the jsonata-rust core evaluator

A shallow embedding of the pool-based evaluator in `src/evaluator.rs`
(with the value kinds of `src/value/kind.rs`), together with theorems
settling the frozen claims about it.

Modelling conventions:

* IEEE-754 doubles are modelled as extended rationals (`Num`): a finite
  rational, the two infinities, or NaN.  The arithmetic cases the claims
  exercise (division by zero producing an infinity, NaN propagation) are
  covered; finite-overflow-to-infinity is not representable and no claim
  depends on it.
* Values live in a pool (`St.pool`, a list of `ValueKind` cells) and are
  referred to by index, exactly as in the source arena.  Cell 0 of every
  well-formed state is the canonical `Undefined` handle returned by
  `pool.undefined()`.
* Frames live in `St.frames` and are referred to by index; `bind`
  mutates the addressed frame, `lookup` walks the parent chain.
* Rust `Result::Err` is `Outcome.err (.error e)`; a `panic!` /
  `unreachable!` / `unimplemented!` is `Outcome.err (.panicked p)`;
  exhausted recursion fuel is `Outcome.err .outOfFuel`.
* `evaluate` is fuel-indexed: each recursive evaluation level consumes
  one unit.  All per-node helpers are parameterised by the continuation
  `ev` used for sub-expressions, so order-of-evaluation facts can be
  stated for an arbitrary continuation.
* Parts of the crate that the claims depend on but whose sources are not
  in `src/` (`value.rs`, `frame.rs`, `functions.rs`, `error.rs`,
  `ast.rs`) are modelled from the specification; each such definition
  carries a doc comment starting with `Modelled from the spec:`.
-/

namespace JsonataRust

/-- Extended-rational model of an IEEE-754 double: finite value,
positive or negative infinity, or NaN. -/
inductive Num where
  | finite (q : ℚ)
  | posInf
  | negInf
  | nan
deriving DecidableEq, Repr

namespace Num

def isNan : Num → Bool
  | .nan => true
  | _ => false

def isInfinite : Num → Bool
  | .posInf => true
  | .negInf => true
  | _ => false

def neg : Num → Num
  | .finite q => .finite (-q)
  | .posInf => .negInf
  | .negInf => .posInf
  | .nan => .nan

def add : Num → Num → Num
  | .nan, _ => .nan
  | _, .nan => .nan
  | .finite a, .finite b => .finite (a + b)
  | .posInf, .negInf => .nan
  | .negInf, .posInf => .nan
  | .posInf, _ => .posInf
  | _, .posInf => .posInf
  | .negInf, _ => .negInf
  | _, .negInf => .negInf

def sub (a b : Num) : Num := add a (neg b)

def mul : Num → Num → Num
  | .nan, _ => .nan
  | _, .nan => .nan
  | .finite a, .finite b => .finite (a * b)
  | .finite a, .posInf => if a = 0 then .nan else if 0 < a then .posInf else .negInf
  | .finite a, .negInf => if a = 0 then .nan else if 0 < a then .negInf else .posInf
  | .posInf, .finite b => if b = 0 then .nan else if 0 < b then .posInf else .negInf
  | .negInf, .finite b => if b = 0 then .nan else if 0 < b then .negInf else .posInf
  | .posInf, .posInf => .posInf
  | .posInf, .negInf => .negInf
  | .negInf, .posInf => .negInf
  | .negInf, .negInf => .posInf

def div : Num → Num → Num
  | .nan, _ => .nan
  | _, .nan => .nan
  | .finite a, .finite b =>
    if b = 0 then (if a = 0 then .nan else if 0 < a then .posInf else .negInf)
    else .finite (a / b)
  | .finite _, .posInf => .finite 0
  | .finite _, .negInf => .finite 0
  | .posInf, .finite b => if 0 ≤ b then .posInf else .negInf
  | .negInf, .finite b => if 0 ≤ b then .negInf else .posInf
  | _, _ => .nan

/-- Truncation toward zero of a rational, as in a float-to-int cast. -/
def rtrunc (q : ℚ) : ℤ := if 0 ≤ q then ⌊q⌋ else -⌊-q⌋

/-- IEEE remainder with the sign of the dividend (Rust `f64 %`). -/
def rem : Num → Num → Num
  | .nan, _ => .nan
  | _, .nan => .nan
  | .finite a, .finite b =>
    if b = 0 then .nan else .finite (a - b * (rtrunc (a / b) : ℚ))
  | .finite a, _ => .finite a
  | _, _ => .nan

/-- Value equality on numbers as used by `ValueKind::eq`; NaN is equal
to nothing, mirroring IEEE comparison. -/
def valEq : Num → Num → Bool
  | .finite a, .finite b => a == b
  | .posInf, .posInf => true
  | .negInf, .negInf => true
  | _, _ => false

def ltB : Num → Num → Bool
  | .finite a, .finite b => a < b
  | .finite _, .posInf => true
  | .negInf, .finite _ => true
  | .negInf, .posInf => true
  | _, _ => false

def leB (a b : Num) : Bool := ltB a b || valEq a b

/-- Rust `f64::floor() as isize`: floor, saturated to the isize range
(`as`-casts from float to integer saturate). NaN casts to 0. -/
def floorToIsize : Num → ℤ
  | .finite q => max (-(2 ^ 63)) (min (2 ^ 63 - 1) ⌊q⌋)
  | .posInf => 2 ^ 63 - 1
  | .negInf => -(2 ^ 63)
  | .nan => 0

/-- Modelled from the spec: `Value::is_unsigned_integer` (value.rs is
not in src).  A number is an unsigned integer when it is finite,
non-negative and integral. -/
def isUnsignedInteger : Num → Bool
  | .finite q => decide (q.den = 1 ∧ 0 ≤ q.num)
  | _ => false

/-- Modelled from the spec: `Value::as_usize` (value.rs is not in src),
applied only after `is_unsigned_integer` holds. -/
def asUsize : Num → ℕ
  | .finite q => q.num.toNat
  | _ => 0

end Num

/-- Array flags of `ArrayFlags` in value.rs, per spec §3: `SEQUENCE`,
`SINGLETON`, `CONS`, `WRAPPED`.  (The older `value/kind.rs` copy lists
only the first three; the pool evaluator also uses `WRAPPED`.) -/
structure ArrayProps where
  sequence : Bool
  singleton : Bool
  cons : Bool
  wrapped : Bool
deriving DecidableEq, Repr

def ArrayProps.noFlags : ArrayProps := ⟨false, false, false, false⟩

def ArrayProps.seqFlags : ArrayProps := ⟨true, false, false, false⟩

def ArrayProps.consFlags : ArrayProps := ⟨false, false, true, false⟩

/-- Modelled from the spec: identifiers for host-registry callables
(functions.rs is not in src).  `constNum` stands for an arbitrary host
function returning a constant, used to make invocations observable. -/
inductive HostFn where
  | strfn
  | boolfn
  | appendfn
  | constNum (q : ℚ)
deriving DecidableEq, Repr

/-- Binary operators of the syntax tree (ast.rs is not in src; the
variants are those matched by `evaluate_binary_op` plus the boolean and
inclusion operators that fall to its catch-all arm). -/
inductive BinaryOp where
  | add | subtract | multiply | divide | modulus
  | lessThan | lessThanEqual | greaterThan | greaterThanEqual
  | equal | notEqual
  | range | concat | bind
  | andOp | orOp | inOp
deriving DecidableEq, Repr

mutual

/-- Syntax tree node: position, kind, predicates, the parser flags
`keep_array` / `keep_singleton_array` / `cons_array`, the optional
`group_by` suffix and the optional per-step `stages` (spec §3, §6). -/
inductive Node where
  | mk (position : Nat) (kind : NodeKind) (predicates : Option (List Node))
      (keepArray : Bool) (keepSingletonArray : Bool) (consArray : Bool)
      (groupBy : Option (Nat × List (Node × Node))) (stages : Option (List Node))

inductive NodeKind where
  | null
  | boolLit (b : Bool)
  | strLit (s : String)
  | numLit (n : Num)
  | block (exprs : List Node)
  | unary (op : UnaryOp)
  | binary (op : BinaryOp) (lhs rhs : Node)
  | var (name : String)
  | ternary (cond : Node) (truthy : Node) (falsy : Option Node)
  | path (steps : List Node)
  | nameLit (s : String)
  | lambda (name : String) (args : List Node) (body : Node)
  | function (proc : Node) (args : List Node) (partApp : Bool)
  | filterKind (inner : Node)
  | sort (terms : List (Node × Bool))

inductive UnaryOp where
  | minus (value : Node)
  | arrayConstructor (items : List Node)
  | objectConstructor (pairs : List (Node × Node))

end

namespace Node

def position : Node → Nat
  | .mk p _ _ _ _ _ _ _ => p

def kind : Node → NodeKind
  | .mk _ k _ _ _ _ _ _ => k

def predicates : Node → Option (List Node)
  | .mk _ _ ps _ _ _ _ _ => ps

def keepArray : Node → Bool
  | .mk _ _ _ ka _ _ _ _ => ka

def keepSingletonArray : Node → Bool
  | .mk _ _ _ _ ksa _ _ _ => ksa

def consArray : Node → Bool
  | .mk _ _ _ _ _ ca _ _ => ca

def groupBy : Node → Option (Nat × List (Node × Node))
  | .mk _ _ _ _ _ _ gb _ => gb

def stages : Node → Option (List Node)
  | .mk _ _ _ _ _ _ _ st => st

end Node

/-- Plain node with a given kind and no flags, predicates or suffixes. -/
def mkNode (k : NodeKind) : Node := .mk 0 k none false false false none none

/-- Value cells of the arena, after `ValueKind` in `src/value/kind.rs`
(with the native-function and lambda variants the pool evaluator
stores). Arrays and objects hold pool indices of their members. -/
inductive ValueKind where
  | undefined
  | null
  | number (n : Num)
  | bool (b : Bool)
  | string (s : String)
  | array (items : List Nat) (props : ArrayProps)
  | object (entries : List (String × Nat))
  | lambda (name : String) (node : Node)
  | nativeFn0 (name : String) (f : HostFn)
  | nativeFn1 (name : String) (f : HostFn)
  | nativeFn2 (name : String) (f : HostFn)
  | nativeFn3 (name : String) (f : HostFn)

/-- Key lookup in an object entry list (HashMap model). -/
def objFind : List (String × Nat) → String → Option Nat
  | [], _ => none
  | (k, v) :: rest, s => if k = s then some v else objFind rest s

/-- Equality of object cells as `HashMap` equality: the same keys bound
to the same member indices, in either order. -/
def objMapEq (l r : List (String × Nat)) : Bool :=
  l.all (fun p => objFind r p.1 == some p.2) &&
  r.all (fun p => objFind l p.1 == some p.2)

/-- Structural comparison of value cells after `ValueKind::eq` in
`src/value/kind.rs`: scalars by value, arrays by their member-index
vectors (flags ignored), objects by their key-to-index mapping, and
every other same-discriminant pair equal. -/
def kindEq : ValueKind → ValueKind → Bool
  | .number a, .number b => Num.valEq a b
  | .bool a, .bool b => a == b
  | .string a, .string b => a == b
  | .array xs _, .array ys _ => xs == ys
  | .object l, .object r => objMapEq l r
  | .undefined, .undefined => true
  | .null, .null => true
  | .lambda _ _, .lambda _ _ => true
  | .nativeFn0 _ _, .nativeFn0 _ _ => true
  | .nativeFn1 _ _, .nativeFn1 _ _ => true
  | .nativeFn2 _ _, .nativeFn2 _ _ => true
  | .nativeFn3 _ _, .nativeFn3 _ _ => true
  | _, _ => false

/-- Modelled from the spec: a frame cell (frame.rs is not in src) —
an ordered binding list plus an optional parent frame (spec §3, §4.2). -/
structure FrameCell where
  bindings : List (String × Nat)
  parent : Option Nat

/-- Evaluation state: the value pool and the frame store.  Handles are
indices into these lists. -/
structure St where
  pool : List ValueKind
  frames : List FrameCell

namespace St

/-- Dereference a value handle; out-of-pool handles read as undefined. -/
def getKind (st : St) (i : Nat) : ValueKind := st.pool.getD i .undefined

def setKind (st : St) (i : Nat) (k : ValueKind) : St :=
  { st with pool := st.pool.set i k }

/-- Allocate a fresh cell, returning its handle. -/
def alloc (st : St) (k : ValueKind) : Nat × St :=
  (st.pool.length, { st with pool := st.pool ++ [k] })

def isArray (st : St) (i : Nat) : Bool :=
  match st.getKind i with
  | .array _ _ => true
  | _ => false

def isUndef (st : St) (i : Nat) : Bool :=
  match st.getKind i with
  | .undefined => true
  | _ => false

def isString (st : St) (i : Nat) : Bool :=
  match st.getKind i with
  | .string _ => true
  | _ => false

def isNumber (st : St) (i : Nat) : Bool :=
  match st.getKind i with
  | .number _ => true
  | _ => false

def isNanV (st : St) (i : Nat) : Bool :=
  match st.getKind i with
  | .number n => n.isNan
  | _ => false

def asNum (st : St) (i : Nat) : Num :=
  match st.getKind i with
  | .number n => n
  | _ => .nan

def asStringV (st : St) (i : Nat) : String :=
  match st.getKind i with
  | .string s => s
  | _ => ""

def asBoolV (st : St) (i : Nat) : Bool :=
  match st.getKind i with
  | .bool b => b
  | _ => false

/-- Member indices of an array cell (empty for non-arrays). -/
def arrItems (st : St) (i : Nat) : List Nat :=
  match st.getKind i with
  | .array xs _ => xs
  | _ => []

/-- Flags of an array cell; non-arrays carry no flags (spec §3 inv. 2). -/
def propsOf (st : St) (i : Nat) : ArrayProps :=
  match st.getKind i with
  | .array _ p => p
  | _ => ArrayProps.noFlags

def lenV (st : St) (i : Nat) : Nat := (st.arrItems i).length

/-- Modelled from the spec: `Value::get_member` (value.rs is not in
src): member access on arrays, the undefined handle out of range. -/
def getMember (st : St) (i : Nat) (n : Nat) : Nat :=
  match st.getKind i with
  | .array xs _ => xs.getD n 0
  | _ => 0

def pushIndex (st : St) (a : Nat) (v : Nat) : St :=
  match st.getKind a with
  | .array xs p => st.setKind a (.array (xs ++ [v]) p)
  | _ => st

/-- Allocate a cell for `k` and push its handle onto array `a`
(`Value::push`). -/
def pushKind (st : St) (a : Nat) (k : ValueKind) : St :=
  let (v, st') := st.alloc k
  st'.pushIndex a v

def updateProps (st : St) (i : Nat) (f : ArrayProps → ArrayProps) : St :=
  match st.getKind i with
  | .array xs p => st.setKind i (.array xs (f p))
  | _ => st

def wrapInArray (st : St) (v : Nat) (p : ArrayProps) : Nat × St :=
  st.alloc (.array [v] p)

/-- Modelled from the spec: `wrap_in_array_if_needed` — arrays pass
through, anything else is wrapped (spec §4.1). -/
def wrapIfNeeded (st : St) (v : Nat) (p : ArrayProps) : Nat × St :=
  if st.isArray v then (v, st) else st.wrapInArray v p

/-- Insert-or-replace on an object cell (`insert_index`). -/
def insertIndex (st : St) (o : Nat) (key : String) (v : Nat) : St :=
  match st.getKind o with
  | .object entries =>
    if (objFind entries key).isSome then
      st.setKind o (.object (entries.map (fun p => if p.1 = key then (key, v) else p)))
    else
      st.setKind o (.object (entries ++ [(key, v)]))
  | _ => st

def newFrame (st : St) (parent : Option Nat) : Nat × St :=
  (st.frames.length, { st with frames := st.frames ++ [⟨[], parent⟩] })

/-- Modelled from the spec: `Frame::bind` mutates the addressed frame,
newest binding first (spec §4.2). -/
def bindVar (st : St) (fid : Nat) (name : String) (v : Nat) : St :=
  match st.frames.getD fid ⟨[], none⟩ with
  | cell => { st with frames := st.frames.set fid ⟨(name, v) :: cell.bindings, cell.parent⟩ }

def lookupAux (frames : List FrameCell) : Nat → Nat → String → Option Nat
  | 0, _, _ => none
  | fuel + 1, fid, name =>
    let cell := frames.getD fid ⟨[], none⟩
    match cell.bindings.find? (fun p => p.1 = name) with
    | some p => some p.2
    | none =>
      match cell.parent with
      | some pid => lookupAux frames fuel pid name
      | none => none

/-- Modelled from the spec: `Frame::lookup` walks the parent chain
(spec §4.2).  Parent ids of frames created by the evaluator strictly
decrease, so a fuel of the store length suffices. -/
def lookupVar (st : St) (fid : Nat) (name : String) : Option Nat :=
  lookupAux st.frames (st.frames.length + 1) fid name

end St

/-- Equality of two values as the pool evaluator compares them:
dereference each handle once and apply `ValueKind::eq`. -/
def valueEq (st : St) (a b : Nat) : Bool :=
  kindEq (st.getKind a) (st.getKind b)

/-- Error kinds raised by the evaluator, after the constructors used in
`src/evaluator.rs` (error.rs is not in src; `rangeTooLarge` is the
spec §7 taxonomy entry D2014 that the older evaluator copy raises). -/
inductive Error where
  | negatingNonNumeric (pos : Nat) (v : Nat)
  | leftSideNotNumber (pos : Nat) (op : BinaryOp)
  | rightSideNotNumber (pos : Nat) (op : BinaryOp)
  | numberOutOfRange (n : Num)
  | binaryOpTypes (pos : Nat) (op : BinaryOp)
  | binaryOpMismatch (pos : Nat) (lhs rhs : Nat) (op : BinaryOp)
  | leftSideNotInteger (pos : Nat)
  | rightSideNotInteger (pos : Nat)
  | rangeTooLarge (pos : Nat) (size : Nat)
  | nonStringKey (pos : Nat) (key : Nat)
  | multipleKeys (pos : Nat) (key : Nat)
  | invokedNonFunction (pos : Nat)
  | invokedNonFunctionSuggest (pos : Nat) (name : String)
  | argumentNotValid (pos : Nat) (argIndex : Nat) (name : String)
deriving DecidableEq, Repr

/-- A Rust panic site: `unreachable!` or `unimplemented!`. -/
inductive PanicKind where
  | unreachableCode
  | notImplemented
deriving DecidableEq, Repr

/-- How an evaluation can fail: a returned `Err`, a panic, or exhausted
modelling fuel. -/
inductive EvalError where
  | error (e : Error)
  | panicked (p : PanicKind)
  | outOfFuel
deriving DecidableEq, Repr

/-- Result of a stateful evaluation step. -/
inductive Outcome (α : Type) where
  | ok (a : α) (st : St)
  | err (e : EvalError)

/-! ## Host function registry (spec §6; functions.rs is not in src) -/

/-- Decimal rendering of the extended rationals for `$string`. -/
def numToString : Num → String
  | .finite q =>
    if q.den = 1 then toString q.num else toString q.num ++ "/" ++ toString q.den
  | .posInf => "Infinity"
  | .negInf => "-Infinity"
  | .nan => "NaN"

/-- Modelled from the spec: the string rendering behind host `string`
(spec §6); containers are rendered opaquely, which no claim exercises. -/
def stringifyKind : ValueKind → String
  | .string s => s
  | .number n => numToString n
  | .bool b => if b then "true" else "false"
  | .null => "null"
  | _ => ""

/-- Modelled from the spec: host `string(value)` allocates the string
rendering of a value; `Undefined` yields the undefined handle. -/
def fnString (st : St) (v : Nat) : Nat × St :=
  match st.getKind v with
  | .undefined => (0, st)
  | k => st.alloc (.string (stringifyKind k))

/-- Modelled from the spec: host `boolean` truthiness — `false`, the
empty string, the empty array, the empty object, 0, `null` and
`Undefined` are false; everything else is true (spec §6). -/
def truthy (st : St) (v : Nat) : Bool :=
  match st.getKind v with
  | .bool b => b
  | .string s => s ≠ ""
  | .number n => !(Num.valEq n (.finite 0)) && !n.isNan
  | .array xs _ => !xs.isEmpty
  | .object entries => !entries.isEmpty
  | _ => false

/-- Modelled from the spec: host `boolean(value)` as a value-returning
callable (`fn_boolean` allocates a `Bool` cell). -/
def fnBoolean (st : St) (v : Nat) : Nat × St :=
  st.alloc (.bool (truthy st v))

/-- Modelled from the spec: host `append(a, b)` — `Undefined` passes
through; each side contributes its members if an array and itself
otherwise; an array left side keeps its flags, a scalar one starts a
`SEQUENCE` (spec §6). -/
def fnAppend (st : St) (a b : Nat) : Nat × St :=
  if st.isUndef a then (b, st)
  else if st.isUndef b then (a, st)
  else
    let aItems := if st.isArray a then st.arrItems a else [a]
    let bItems := if st.isArray b then st.arrItems b else [b]
    let props := if st.isArray a then st.propsOf a else ArrayProps.seqFlags
    st.alloc (.array (aItems ++ bItems) props)

/-- Collect the handles produced by looking a key up in a value: a
matching object binding, or the flattened results over an array.
Fuel-indexed against malformed pools; one unit per nesting level. -/
def lookupVals (st : St) (name : String) : Nat → Nat → List Nat
  | 0, _ => []
  | fuel + 1, i =>
    match st.getKind i with
    | .object entries =>
      match objFind entries name with
      | some v => [v]
      | none => []
    | .array xs _ => xs.flatMap (fun x => lookupVals st name fuel x)
    | _ => []

/-- Modelled from the spec: `fn_lookup_internal` (functions.rs is not
in src) — an object yields the bound value or `Undefined`; an array
maps the lookup over its members into a flattened `SEQUENCE`
(spec §4.3.1, §6). -/
def fnLookup (st : St) (input : Nat) (name : String) : Nat × St :=
  match st.getKind input with
  | .object entries =>
    match objFind entries name with
    | some v => (v, st)
    | none => (0, st)
  | .array _ _ =>
    st.alloc (.array (lookupVals st name (st.pool.length + 1) input) ArrayProps.seqFlags)
  | _ => (0, st)

/-- Modelled from the spec: dispatch of an arity-0 host callable. -/
def hostCall0 (f : HostFn) (input : Nat) (st : St) : Outcome Nat :=
  match f with
  | .constNum q => let (v, st') := st.alloc (.number (.finite q)); .ok v st'
  | _ =>
    let _ := input
    .ok 0 st

/-- Modelled from the spec: dispatch of an arity-1 host callable. -/
def hostCall1 (f : HostFn) (arg : Nat) (st : St) : Outcome Nat :=
  match f with
  | .strfn => let (v, st') := fnString st arg; .ok v st'
  | .boolfn => let (v, st') := fnBoolean st arg; .ok v st'
  | .constNum q => let (v, st') := st.alloc (.number (.finite q)); .ok v st'
  | .appendfn => .ok 0 st

/-- Modelled from the spec: dispatch of an arity-2 host callable. -/
def hostCall2 (f : HostFn) (a b : Nat) (st : St) : Outcome Nat :=
  match f with
  | .appendfn => let (v, st') := fnAppend st a b; .ok v st'
  | .constNum q => let (v, st') := st.alloc (.number (.finite q)); .ok v st'
  | _ =>
    let _ := (a, b)
    .ok 0 st

/-- Modelled from the spec: dispatch of an arity-3 host callable. -/
def hostCall3 (f : HostFn) (a b c : Nat) (st : St) : Outcome Nat :=
  match f with
  | .constNum q => let (v, st') := st.alloc (.number (.finite q)); .ok v st'
  | _ =>
    let _ := (a, b, c)
    .ok 0 st

/-! ## The evaluator (`src/evaluator.rs`)

Each helper takes the continuation `ev` used to evaluate
sub-expressions; the fuel-indexed `evaluate` ties the knot. -/

/-- Continuation type: node, input handle, frame id, state. -/
abbrev EvalCont : Type := Node → Nat → Nat → St → Outcome Nat

/-- Does a node construct an array literal (`Unary::ArrayConstructor`)? -/
def isArrayConsNode (n : Node) : Bool :=
  match n.kind with
  | .unary (.arrayConstructor _) => true
  | _ => false

/-- Is a node a `Var` reference? -/
def isVarNode (n : Node) : Bool :=
  match n.kind with
  | .var _ => true
  | _ => false

/-- Variable dispatch (`Evaluator::evaluate_var`): the empty name is the
context value, unwrapping one `WRAPPED` layer; otherwise a frame lookup,
`Undefined` when absent. -/
def evaluateVar (st : St) (input : Nat) (frame : Nat) (name : String) : Outcome Nat :=
  if name = "" then
    if (st.propsOf input).wrapped then .ok (st.getMember input 0) st else .ok input st
  else
    match st.lookupVar frame name with
    | some v => .ok v st
    | none => .ok 0 st

def evaluateBlockExprs (ev : EvalCont) (exprs : List Node) (cur : Nat) (fid : Nat)
    (st : St) : Outcome Nat :=
  match exprs with
  | [] => .ok cur st
  | e :: rest =>
    match ev e cur fid st with
    | .err er => .err er
    | .ok r st1 => evaluateBlockExprs ev rest r fid st1

/-- Block dispatch (`Evaluator::evaluate_block`): a child frame, the
expressions threaded through the rolling result, `Undefined` if empty. -/
def evaluateBlock (ev : EvalCont) (exprs : List Node) (input : Nat) (frame : Nat)
    (st : St) : Outcome Nat :=
  let (fid, st1) := st.newFrame (some frame)
  if exprs.isEmpty then .ok 0 st1
  else evaluateBlockExprs ev exprs input fid st1

/-- Group accumulator: key string to (bucket data handle, pair index),
modelling the `HashMap<String, Group>` of `evaluate_group_expression`. -/
abbrev Groups : Type := List (String × Nat × Nat)

def groupsFind (g : Groups) (s : String) : Option (Nat × Nat) :=
  match g.find? (fun p => p.1 = s) with
  | some p => some p.2
  | none => none

def groupsInsert (g : Groups) (s : String) (dv : Nat × Nat) : Groups :=
  if (g.find? (fun p => p.1 = s)).isSome then
    g.map (fun p => if p.1 = s then (s, dv) else p)
  else
    g ++ [(s, dv)]

/-- One (item, pair) interaction of `evaluate_group_expression`: the key
expression is evaluated against the item; a non-string key errors; a key
owned by a different pair index errors `MultipleKeys`; a key owned by
the same pair appends the item to the bucket via host `append`; a fresh
key starts a bucket seeded with the item. -/
def processGroupPair (ev : EvalCont) (pos : Nat) (frame : Nat) (item : Nat) (i : Nat)
    (keyNode : Node) (groups : Groups) (st : St) : Outcome Groups :=
  match ev keyNode item frame st with
  | .err e => .err e
  | .ok kv st1 =>
    match st1.getKind kv with
    | .string s =>
      match groupsFind groups s with
      | some (data, j) =>
        if j ≠ i then .err (.error (.multipleKeys pos kv))
        else
          let (nd, st2) := fnAppend st1 data item
          .ok (groupsInsert groups s (nd, i)) st2
      | none => .ok (groupsInsert groups s (item, i)) st1
    | _ => .err (.error (.nonStringKey pos kv))

def groupPairsLoop (ev : EvalCont) (pos : Nat) (frame : Nat) (item : Nat)
    (pairs : List (Node × Node)) (i : Nat) (groups : Groups) (st : St) : Outcome Groups :=
  match pairs with
  | [] => .ok groups st
  | (k, _) :: rest =>
    match processGroupPair ev pos frame item i k groups st with
    | .err e => .err e
    | .ok g st1 => groupPairsLoop ev pos frame item rest (i + 1) g st1

def groupItemsLoop (ev : EvalCont) (pos : Nat) (frame : Nat)
    (pairs : List (Node × Node)) (items : List Nat) (groups : Groups) (st : St) :
    Outcome Groups :=
  match items with
  | [] => .ok groups st
  | item :: rest =>
    match groupPairsLoop ev pos frame item pairs 0 groups st with
    | .err e => .err e
    | .ok g st1 => groupItemsLoop ev pos frame pairs rest g st1

def groupBuildLoop (ev : EvalCont) (pairs : List (Node × Node)) (frame : Nat)
    (entries : Groups) (obj : Nat) (st : St) : Outcome Nat :=
  match entries with
  | [] => .ok obj st
  | (s, data, idx) :: rest =>
    let vnode := (pairs.getD idx (mkNode .null, mkNode .null)).2
    match ev vnode data frame st with
    | .err e => .err e
    | .ok v st1 =>
      if st1.isUndef v then groupBuildLoop ev pairs frame rest obj st1
      else groupBuildLoop ev pairs frame rest obj (st1.insertIndex obj s v)

/-- Group evaluation (`Evaluator::evaluate_group_expression`): wrap the
input, treat an empty input as one `Undefined` item, bucket the items by
evaluated key, then build the output object from the buckets, omitting
`Undefined` values. -/
def evaluateGroupExpression (ev : EvalCont) (pos : Nat) (pairs : List (Node × Node))
    (input : Nat) (frame : Nat) (st : St) : Outcome Nat :=
  let (inp, st1) := st.wrapIfNeeded input ArrayProps.noFlags
  let st2 := if st1.lenV inp == 0 then st1.pushKind inp .undefined else st1
  match groupItemsLoop ev pos frame pairs (st2.arrItems inp) [] st2 with
  | .err e => .err e
  | .ok groups st3 =>
    let (obj, st4) := st3.alloc (.object [])
    groupBuildLoop ev pairs frame groups obj st4

def arrayConsLoop (ev : EvalCont) (items : List Node) (input : Nat) (frame : Nat)
    (acc : Nat) (st : St) : Outcome Nat :=
  match items with
  | [] => .ok acc st
  | item :: rest =>
    match ev item input frame st with
    | .err e => .err e
    | .ok v st1 =>
      if isArrayConsNode item then
        arrayConsLoop ev rest input frame acc (st1.pushIndex acc v)
      else
        let (acc2, st2) := fnAppend st1 acc v
        arrayConsLoop ev rest input frame acc2 st2

/-- Unary dispatch (`Evaluator::evaluate_unary_op`): numeric negation,
array constructor (nested constructors kept as elements, other items
merged by host `append`), and object constructor via group evaluation. -/
def evaluateUnaryOp (ev : EvalCont) (node : Node) (op : UnaryOp) (input : Nat)
    (frame : Nat) (st : St) : Outcome Nat :=
  match op with
  | .minus vnode =>
    match ev vnode input frame st with
    | .err e => .err e
    | .ok r st1 =>
      match st1.getKind r with
      | .undefined => .ok 0 st1
      | .number n =>
        if n.isNan then .err (.error (.negatingNonNumeric node.position r))
        else
          let (v, st2) := st1.alloc (.number n.neg)
          .ok v st2
      | _ => .err (.error (.negatingNonNumeric node.position r))
  | .arrayConstructor items =>
    let (acc, st1) :=
      st.alloc (.array [] (if node.consArray then ArrayProps.consFlags else ArrayProps.noFlags))
    arrayConsLoop ev items input frame acc st1
  | .objectConstructor pairs =>
    evaluateGroupExpression ev node.position pairs input frame st

def isUnsignedIntegerV (st : St) (v : Nat) : Bool :=
  match st.getKind v with
  | .number n => n.isUnsignedInteger
  | _ => false

def rangePushLoop (arr : Nat) : Nat → Nat → St → St
  | _, 0, st => st
  | start, count + 1, st =>
    rangePushLoop arr (start + 1) count (st.pushKind arr (.number (.finite start)))

/-- The arithmetic performed by the numeric binary operators. -/
def arithOp (op : BinaryOp) (a b : Num) : Num :=
  match op with
  | .add => Num.add a b
  | .subtract => Num.sub a b
  | .multiply => Num.mul a b
  | .divide => Num.div a b
  | _ => Num.rem a b

/-- Is the operator one of `Add/Subtract/Multiply/Divide/Modulus`? -/
def isArithOp (op : BinaryOp) : Bool :=
  match op with
  | .add | .subtract | .multiply | .divide | .modulus => true
  | _ => false

/-- The part of `evaluate_binary_op` that runs after both operands have
been evaluated (everything below the `Bind` early return). -/
def binaryOpTail (node : Node) (op : BinaryOp) (lv rv : Nat) (st : St) : Outcome Nat :=
  match op with
  | .add | .subtract | .multiply | .divide | .modulus =>
    match st.getKind lv with
    | .undefined => .ok 0 st
    | .number ln =>
      if ln.isNan then .err (.error (.leftSideNotNumber node.position op))
      else
        match st.getKind rv with
        | .undefined => .ok 0 st
        | .number rn =>
          if rn.isNan then .err (.error (.rightSideNotNumber node.position op))
          else
            let res := arithOp op ln rn
            if res.isInfinite then .err (.error (.numberOutOfRange res))
            else
              let (v, st1) := st.alloc (.number res)
              .ok v st1
        | _ => .err (.error (.rightSideNotNumber node.position op))
    | _ => .err (.error (.leftSideNotNumber node.position op))
  | .lessThan | .lessThanEqual | .greaterThan | .greaterThanEqual =>
    if st.isUndef lv || st.isUndef rv then .ok 0 st
    else if !((st.isNumber lv || st.isString lv) && (st.isNumber rv || st.isString rv)) then
      .err (.error (.binaryOpTypes node.position op))
    else
      match st.getKind lv, st.getKind rv with
      | .number a, .number b =>
        let (v, st1) := st.alloc (.bool
          (match op with
           | .lessThan => Num.ltB a b
           | .lessThanEqual => Num.leB a b
           | .greaterThan => Num.ltB b a
           | _ => Num.leB b a))
        .ok v st1
      | .string a, .string b =>
        let (v, st1) := st.alloc (.bool
          (match op with
           | .lessThan => a < b
           | .lessThanEqual => a ≤ b
           | .greaterThan => b < a
           | _ => b ≤ a))
        .ok v st1
      | _, _ => .err (.error (.binaryOpMismatch node.position lv rv op))
  | .equal | .notEqual =>
    if st.isUndef lv || st.isUndef rv then
      let (v, st1) := st.alloc (.bool false)
      .ok v st1
    else
      let (v, st1) := st.alloc (.bool
        (match op with
         | .equal => valueEq st lv rv
         | _ => !(valueEq st lv rv)))
      .ok v st1
  | .range =>
    if !(st.isUndef lv) && !(isUnsignedIntegerV st lv) then
      .err (.error (.leftSideNotInteger node.position))
    else if !(st.isUndef rv) && !(isUnsignedIntegerV st rv) then
      .err (.error (.rightSideNotInteger node.position))
    else if st.isUndef lv || st.isUndef rv then .ok 0 st
    else
      let l := (st.asNum lv).asUsize
      let r := (st.asNum rv).asUsize
      if l > r then .ok 0 st
      else
        let size := r - l + 1
        if size > 10000000 then .err (.panicked .unreachableCode)
        else
          let (arr, st1) := st.alloc (.array [] ArrayProps.seqFlags)
          .ok arr (rangePushLoop arr l size st1)
  | .concat =>
    let p1 :=
      if st.isUndef lv then ("", st)
      else
        let (sv, stx) := fnString st lv
        (stx.asStringV sv, stx)
    let p2 :=
      if p1.2.isUndef rv then ("", p1.2)
      else
        let (sv, sty) := fnString p1.2 rv
        (sty.asStringV sv, sty)
    let (v, st1) := p2.2.alloc (.string (p1.1 ++ p2.1))
    .ok v st1
  | _ => .err (.panicked .notImplemented)

/-- Binary dispatch (`Evaluator::evaluate_binary_op`): the right operand
is evaluated first; `Bind` then records the binding (when the left node
is a `Var`) and returns the right value; every other operator evaluates
the left operand next and proceeds to `binaryOpTail`. -/
def evaluateBinaryOp (ev : EvalCont) (node : Node) (op : BinaryOp) (lhsN rhsN : Node)
    (input : Nat) (frame : Nat) (st : St) : Outcome Nat :=
  match ev rhsN input frame st with
  | .err e => .err e
  | .ok rv st1 =>
    if op = .bind then
      match lhsN.kind with
      | .var name => .ok rv (st1.bindVar frame name rv)
      | _ => .ok rv st1
    else
      match ev lhsN input frame st1 with
      | .err e => .err e
      | .ok lv st2 => binaryOpTail node op lv rv st2

/-- Ternary dispatch (`Evaluator::evaluate_ternary`): coerce the
condition through host `boolean`, then take a branch; a false condition
with no falsy branch is `Undefined`. -/
def evaluateTernary (ev : EvalCont) (cond truthyN : Node) (falsy : Option Node)
    (input : Nat) (frame : Nat) (st : St) : Outcome Nat :=
  match ev cond input frame st with
  | .err e => .err e
  | .ok c st1 =>
    let (bv, st2) := fnBoolean st1 c
    if st2.asBoolV bv then ev truthyN input frame st2
    else
      match falsy with
      | some f => ev f input frame st2
      | none => .ok 0 st2

/-- The index computation of `evaluate_filter`: floor the number, cast
to `isize` (saturating), add the length when negative, and cast the
result to `usize` (wrapping modulo 2^64). -/
def getIndexU (n : Num) (len : Nat) : Nat :=
  ((if n.floorToIsize < 0 then n.floorToIsize + (len : ℤ) else n.floorToIsize)
    % ((2 : ℤ) ^ 64)).toNat

def filterMembersLoop (ev : EvalCont) (inner : Node) (frame : Nat) (members : List Nat)
    (i : Nat) (len : Nat) (res : Nat) (st : St) : Outcome Nat :=
  match members with
  | [] => .ok res st
  | item :: rest =>
    match ev inner item frame st with
    | .err e => .err e
    | .ok ix st1 =>
      let (ix2, st2) :=
        if st1.isNumber ix && !(st1.isNanV ix) then st1.wrapInArray ix ArrayProps.noFlags
        else (ix, st1)
      if st2.isArray ix2 && (st2.arrItems ix2).all (fun v => st2.isNumber v && !(st2.isNanV v)) then
        let st3 := (st2.arrItems ix2).foldl
          (fun s v => if getIndexU (st2.asNum v) len == i then s.pushIndex res item else s) st2
        filterMembersLoop ev inner frame rest (i + 1) len res st3
      else
        let (bv, st3) := fnBoolean st2 ix2
        let st4 := if st3.asBoolV bv then st3.pushIndex res item else st3
        filterMembersLoop ev inner frame rest (i + 1) len res st4

/-- Filter dispatch (`Evaluator::evaluate_filter`): a fresh `SEQUENCE`
result, the input wrapped if not an array; a literal-number filter
selects by index (negative counts from the end, a selected array
replaces the result wholesale); any other filter is evaluated per member
as an index set or a boolean predicate. -/
def evaluateFilter (ev : EvalCont) (node : Node) (input : Nat) (frame : Nat)
    (st : St) : Outcome Nat :=
  let (res, st1) := st.alloc (.array [] ArrayProps.seqFlags)
  let (inp, st2) := st1.wrapIfNeeded input ArrayProps.noFlags
  match node.kind with
  | .filterKind inner =>
    let len := if st2.isArray inp then st2.lenV inp else 1
    match inner.kind with
    | .numLit n =>
      let idx := getIndexU n len
      let item := st2.getMember inp idx
      if st2.isUndef item then .ok res st2
      else if st2.isArray item then .ok item st2
      else .ok res (st2.pushIndex res item)
    | _ => filterMembersLoop ev inner frame (st2.arrItems inp) 0 len res st2
  | _ => .err (.panicked .notImplemented)

def stagesLoop (ev : EvalCont) (stages : List Node) (r : Nat) (frame : Nat)
    (st : St) : Outcome Nat :=
  match stages with
  | [] => .ok r st
  | s :: rest =>
    match evaluateFilter ev s r frame st with
    | .err e => .err e
    | .ok r2 st1 => stagesLoop ev rest r2 frame st1

def stepMembersLoop (ev : EvalCont) (step : Node) (members : List Nat) (frame : Nat)
    (acc : Nat) (st : St) : Outcome Nat :=
  match members with
  | [] => .ok acc st
  | m :: rest =>
    match ev step m frame st with
    | .err e => .err e
    | .ok ir st1 =>
      match
        (match step.stages with
         | some ss => stagesLoop ev ss ir frame st1
         | none => .ok ir st1) with
      | .err e => .err e
      | .ok ir2 st2 =>
        let st3 := if st2.isUndef ir2 then st2 else st2.pushIndex acc ir2
        stepMembersLoop ev step rest frame acc st3

def collapseLoop : List Nat → Nat → St → St
  | [], _, st => st
  | x :: rest, rs, st =>
    if !(st.isArray x) || (st.propsOf x).cons then
      collapseLoop rest rs (st.pushIndex rs x)
    else
      collapseLoop rest rs ((st.arrItems x).foldl (fun s m => s.pushIndex rs m) st)

/-- The collapse at the end of `evaluate_step`: on the last step a
singleton sequence holding a non-`SEQUENCE` array is returned directly;
otherwise a fresh `SEQUENCE` is built in which each entry that is an
array without `CONS` is spliced one level and every other entry is
appended as-is. -/
def stepCollapse (last : Bool) (r : Nat) (st : St) : Nat × St :=
  if last && st.lenV r == 1 && st.isArray (st.getMember r 0)
      && !((st.propsOf (st.getMember r 0)).sequence) then
    (st.getMember r 0, st)
  else
    let (rs, st1) := st.alloc (.array [] ArrayProps.seqFlags)
    (rs, collapseLoop (st1.arrItems r) rs st1)

/-- Step evaluation (`Evaluator::evaluate_step`): a fresh `SEQUENCE`
accumulator; `Sort` steps are unimplemented; each input member is
evaluated (then run through the step stages), non-`Undefined` results
are appended by handle; finally the sequence is collapsed. -/
def evaluateStep (ev : EvalCont) (step : Node) (input : Nat) (frame : Nat)
    (last : Bool) (st : St) : Outcome Nat :=
  let (acc, st1) := st.alloc (.array [] ArrayProps.seqFlags)
  match step.kind with
  | .sort _ => .err (.panicked .notImplemented)
  | _ =>
    match stepMembersLoop ev step (st1.arrItems input) frame acc st1 with
    | .err e => .err e
    | .ok acc2 st2 =>
      let (v, st3) := stepCollapse last acc2 st2
      .ok v st3

def evaluatePathLoop (ev : EvalCont) (steps : List Node) (index : Nat) (input : Nat)
    (frame : Nat) (st : St) : Outcome Nat :=
  match steps with
  | [] => .ok 0 st
  | step :: rest =>
    match
      (if index == 0 && step.consArray then ev step input frame st
       else evaluateStep ev step input frame rest.isEmpty st) with
    | .err e => .err e
    | .ok r st1 =>
      if st1.isUndef r || (st1.isArray r && st1.lenV r == 0) then .ok r st1
      else if rest.isEmpty then .ok r st1
      else evaluatePathLoop ev rest (index + 1) r frame st1

/-- Path evaluation (`Evaluator::evaluate_path`): wrap a non-array input
(or any input when the first step is a `Var`), run the steps with
short-circuit on `Undefined` or empty, apply the `keep_singleton_array`
flag adjustment, then an optional trailing group expression. -/
def evaluatePath (ev : EvalCont) (node : Node) (steps : List Node) (input : Nat)
    (frame : Nat) (st : St) : Outcome Nat :=
  let firstIsVar :=
    match steps.head? with
    | some s => isVarNode s
    | none => false
  let (inp, st1) :=
    if st.isArray input && !firstIsVar then (input, st)
    else st.wrapInArray input ArrayProps.noFlags
  match evaluatePathLoop ev steps 0 inp frame st1 with
  | .err e => .err e
  | .ok r st2 =>
    let (r2, st3) :=
      if node.keepSingletonArray then
        let flags := st2.propsOf r
        let (ra, sta) :=
          if flags.cons && !flags.sequence then
            st2.wrapInArray r { flags with sequence := true }
          else (r, st2)
        (ra, sta.updateProps ra (fun _ => { flags with singleton := true }))
      else (r, st2)
    match node.groupBy with
    | some (pos, pairs) => evaluateGroupExpression ev pos pairs r2 frame st3
    | none => .ok r2 st3

def argsLoop (ev : EvalCont) (args : List Node) (input : Nat) (frame : Nat)
    (acc : Nat) (st : St) : Outcome Nat :=
  match args with
  | [] => .ok acc st
  | a :: rest =>
    match ev a input frame st with
    | .err e => .err e
    | .ok v st1 => argsLoop ev rest input frame acc (st1.pushIndex acc v)

def bindFormalsLoop (formals : List Node) (argsV : Nat) (idx : Nat) (fid : Nat)
    (st : St) : Outcome Unit :=
  match formals with
  | [] => .ok () st
  | f :: rest =>
    match f.kind with
    | .var name =>
      bindFormalsLoop rest argsV (idx + 1) fid (st.bindVar fid name (st.getMember argsV idx))
    | _ => .err (.panicked .unreachableCode)

/-- Callable application (`Evaluator::apply_function`): a lambda gets a
child frame with its formals bound positionally and its body evaluated;
native functions of arity 1–3 match the argument count (arity 1 with no
arguments receives the input), raising `ArgumentNotValid` otherwise;
arity 0 is invoked directly; anything else is `InvokedNonFunction`. -/
def applyFunction (ev : EvalCont) (pos : Nat) (input : Nat) (procV argsV : Nat)
    (frame : Nat) (st : St) : Outcome Nat :=
  match st.getKind procV with
  | .lambda _ lamNode =>
    match lamNode.kind with
    | .lambda _ largs body =>
      let (fid, st1) := st.newFrame (some frame)
      match bindFormalsLoop largs argsV 0 fid st1 with
      | .err e => .err e
      | .ok _ st2 => ev body input fid st2
    | _ => .err (.panicked .unreachableCode)
  | .nativeFn0 _ f => hostCall0 f input st
  | .nativeFn1 nm f =>
    match st.lenV argsV with
    | 0 => hostCall1 f input st
    | 1 => hostCall1 f (st.getMember argsV 0) st
    | _ => .err (.error (.argumentNotValid pos 2 nm))
  | .nativeFn2 nm f =>
    match st.lenV argsV with
    | 0 => .err (.error (.argumentNotValid pos 1 nm))
    | 1 => .err (.error (.argumentNotValid pos 2 nm))
    | 2 => hostCall2 f (st.getMember argsV 0) (st.getMember argsV 1) st
    | _ => .err (.error (.argumentNotValid pos 3 nm))
  | .nativeFn3 nm f =>
    match st.lenV argsV with
    | 0 => .err (.error (.argumentNotValid pos 1 nm))
    | 1 => .err (.error (.argumentNotValid pos 2 nm))
    | 2 => .err (.error (.argumentNotValid pos 3 nm))
    | 3 => hostCall3 f (st.getMember argsV 0) (st.getMember argsV 1) (st.getMember argsV 2) st
    | _ => .err (.error (.argumentNotValid pos 4 nm))
  | _ => .err (.error (.invokedNonFunction pos))

/-- Function-call dispatch (`Evaluator::evaluate_function`): evaluate
the callee; when it is `Undefined` and the callee is a path headed by a
`Name` that exists as a variable, suggest the missing sigil; evaluate
the arguments left to right into an array; apply. -/
def evaluateFunction (ev : EvalCont) (proc : Node) (args : List Node) (input : Nat)
    (frame : Nat) (st : St) : Outcome Nat :=
  match ev proc input frame st with
  | .err e => .err e
  | .ok p st1 =>
    let suggest : Option String :=
      if st1.isUndef p then
        match proc.kind with
        | .path steps =>
          match steps.head? with
          | some s =>
            match s.kind with
            | .nameLit n => if (st1.lookupVar frame n).isSome then some n else none
            | _ => none
          | none => none
        | _ => none
      else none
    match suggest with
    | some n => .err (.error (.invokedNonFunctionSuggest proc.position n))
    | none =>
      let (argsArr, st2) := st1.alloc (.array [] ArrayProps.noFlags)
      match argsLoop ev args input frame argsArr st2 with
      | .err e => .err e
      | .ok aa st3 => applyFunction ev proc.position input p aa frame st3

def predLoop (ev : EvalCont) (filters : List Node) (r : Nat) (frame : Nat)
    (st : St) : Outcome Nat :=
  match filters with
  | [] => .ok r st
  | f :: rest =>
    match evaluateFilter ev f r frame st with
    | .err e => .err e
    | .ok r2 st1 => predLoop ev rest r2 frame st1

/-- The sequence post-processing at the end of `Evaluator::evaluate`
(spec §4.3): a `SEQUENCE` result gains `SINGLETON` under `keep_array`,
collapses to `Undefined` when empty, unwraps a non-`SINGLETON` single
element, and is otherwise returned as-is. -/
def postProcess (node : Node) (r : Nat) (st : St) : Nat × St :=
  if (st.propsOf r).sequence then
    let st1 := if node.keepArray then st.updateProps r (fun p => { p with singleton := true }) else st
    if st1.lenV r == 0 then (0, st1)
    else if st1.lenV r == 1 then
      if (st1.propsOf r).singleton then (r, st1) else (st1.getMember r 0, st1)
    else (r, st1)
  else (r, st)

/-- One level of `Evaluator::evaluate`: dispatch on the node kind,
apply the attached predicates in order, then sequence post-processing. -/
def evalNode (ev : EvalCont) (node : Node) (input : Nat) (frame : Nat)
    (st : St) : Outcome Nat :=
  match
    (match node.kind with
     | .null => let (v, s) := st.alloc .null; Outcome.ok v s
     | .boolLit b => let (v, s) := st.alloc (.bool b); Outcome.ok v s
     | .strLit s0 => let (v, s) := st.alloc (.string s0); Outcome.ok v s
     | .numLit n => let (v, s) := st.alloc (.number n); Outcome.ok v s
     | .block exprs => evaluateBlock ev exprs input frame st
     | .unary op => evaluateUnaryOp ev node op input frame st
     | .binary op l r => evaluateBinaryOp ev node op l r input frame st
     | .var name => evaluateVar st input frame name
     | .ternary c t f => evaluateTernary ev c t f input frame st
     | .path steps => evaluatePath ev node steps input frame st
     | .nameLit s0 => let (v, s) := fnLookup st input s0; Outcome.ok v s
     | .lambda nm _ _ => let (v, s) := st.alloc (.lambda nm node); Outcome.ok v s
     | .function proc args _ => evaluateFunction ev proc args input frame st
     | .filterKind _ => .err (.panicked .notImplemented)
     | .sort _ => .err (.panicked .notImplemented)) with
  | .err e => .err e
  | .ok r st1 =>
    match
      (match node.predicates with
       | some fs => predLoop ev fs r frame st1
       | none => .ok r st1) with
    | .err e => .err e
    | .ok r2 st2 =>
      let (r3, st3) := postProcess node r2 st2
      .ok r3 st3

/-- The fuel-indexed evaluator: `Evaluator::evaluate`, with one unit of
fuel consumed per recursive evaluation level. -/
def evaluate : Nat → Node → Nat → Nat → St → Outcome Nat
  | 0, _, _, _, _ => .err .outOfFuel
  | fuel + 1, node, input, frame, st =>
    evalNode (fun n i f s => evaluate fuel n i f s) node input frame st

/-! ## Observation helpers and spec-side definitions -/

/-- Kind of the value produced by a successful evaluation. -/
def resultKind (o : Outcome Nat) : Option ValueKind :=
  match o with
  | .ok v st => some (st.getKind v)
  | .err _ => none

/-- Pool left behind by a successful evaluation. -/
def resultPool (o : Outcome Nat) : Option (List ValueKind) :=
  match o with
  | .ok _ st => some st.pool
  | .err _ => none

/-- Worklist core of the spec-side deep structural equality. -/
def specStructuralEqAux (pool : List ValueKind) : Nat → List (Nat × Nat) → Bool
  | 0, _ => false
  | _ + 1, [] => true
  | fuel + 1, (i, j) :: rest =>
    match pool.getD i .undefined, pool.getD j .undefined with
    | .undefined, .undefined => specStructuralEqAux pool fuel rest
    | .null, .null => specStructuralEqAux pool fuel rest
    | .bool a, .bool b => a == b && specStructuralEqAux pool fuel rest
    | .number a, .number b => Num.valEq a b && specStructuralEqAux pool fuel rest
    | .string a, .string b => a == b && specStructuralEqAux pool fuel rest
    | .array xs _, .array ys _ =>
      xs.length == ys.length && specStructuralEqAux pool fuel (xs.zip ys ++ rest)
    | .object l, .object r =>
      l.all (fun p => (objFind r p.1).isSome) && r.all (fun p => (objFind l p.1).isSome) &&
        specStructuralEqAux pool fuel (l.map (fun p => (p.2, (objFind r p.1).getD 0)) ++ rest)
    | _, _ => false

/-- Spec-side definition, following the words of spec §3 invariant 4:
equality is structural for `Null`, `Bool`, `Number`, `String`, `Array`
(by element sequence) and `Object` (by key-value mapping) — elements are
compared by dereferenced value, not by handle.  Stated with fuel; any
fuel bounding the comparison tree size is enough. -/
def specStructuralEq (pool : List ValueKind) (fuel : Nat) (i j : Nat) : Bool :=
  specStructuralEqAux pool fuel [(i, j)]

/-- Spec-side definition, following the words of spec §4.3.4: binary
operands evaluated left-then-right (for operators other than `Bind`),
then combined exactly as the evaluator combines them. -/
def specLeftThenRightBinOp (ev : EvalCont) (node : Node) (op : BinaryOp) (lhsN rhsN : Node)
    (input : Nat) (frame : Nat) (st : St) : Outcome Nat :=
  match ev lhsN input frame st with
  | .err e => .err e
  | .ok lv st1 =>
    match ev rhsN input frame st1 with
    | .err e => .err e
    | .ok lv2 st2 => binaryOpTail node op lv lv2 st2

/-- Declared arity, name and host id of a native-function value. -/
def natArity : ValueKind → Option (Nat × String × HostFn)
  | .nativeFn0 nm f => some (0, nm, f)
  | .nativeFn1 nm f => some (1, nm, f)
  | .nativeFn2 nm f => some (2, nm, f)
  | .nativeFn3 nm f => some (3, nm, f)
  | _ => none

/-- Invocation of a native function with exactly its declared number of
positional arguments taken from the evaluated-argument array. -/
def natDispatch (arity : Nat) (f : HostFn) (input argsV : Nat) (st : St) : Outcome Nat :=
  match arity with
  | 1 => hostCall1 f (st.getMember argsV 0) st
  | 2 => hostCall2 f (st.getMember argsV 0) (st.getMember argsV 1) st
  | 3 => hostCall3 f (st.getMember argsV 0) (st.getMember argsV 1) (st.getMember argsV 2) st
  | _ => hostCall0 f input st

/-- The one-level flattening of a collected step sequence: each entry
that is an array without `CONS` contributes its members, every other
entry contributes itself. -/
def stepFlatten (st : St) (items : List Nat) : List Nat :=
  items.flatMap (fun x => if st.isArray x && !((st.propsOf x).cons) then st.arrItems x else [x])

/-! ## Concrete fixtures for witnesses and counterexamples -/

/-- Initial state: the canonical undefined cell and one root frame. -/
def st0 : St := ⟨[.undefined], [⟨[], none⟩]⟩

def numNode (q : ℚ) : Node := mkNode (.numLit (.finite q))

/-- The range expression `1..2`. -/
def c1Node : Node := mkNode (.binary .range (numNode 1) (numNode 2))

/-- The range expression `0..10000000`, whose span 10,000,001 exceeds
the 10,000,000 limit. -/
def c2Node : Node := mkNode (.binary .range (numNode 0) (numNode 10000000))

def c3Lhs : Node := mkNode (.var "x")

def c3Rhs : Node := mkNode (.binary .bind (mkNode (.var "x")) (numNode 5))

/-- The expression `$x + ($x := 5)`: its value reveals which operand was
evaluated first. -/
def c3Node : Node := mkNode (.binary .add c3Lhs c3Rhs)

/-- The expression `"a" + $nope`: a string left operand and an
`Undefined` right operand. -/
def c4Node : Node := mkNode (.binary .add (mkNode (.strLit "a")) (mkNode (.var "nope")))

def c5Inner : Node := mkNode (.unary (.arrayConstructor []))

def c5Arr : Node := mkNode (.unary (.arrayConstructor [c5Inner]))

/-- The expression `[[]] = [[]]`: both operands evaluate to structurally
equal one-element arrays stored at distinct handles. -/
def c5Node : Node := mkNode (.binary .equal c5Arr c5Arr)

/-- A numeric filter predicate node `[q]`. -/
def c8FilterNode (q : ℚ) : Node := mkNode (.filterKind (mkNode (.numLit (.finite q))))

/-- The expression `$x[q]`: a variable reference carrying one numeric
predicate. -/
def c8VarNode (q : ℚ) : Node :=
  .mk 0 (.var "x") (some [c8FilterNode q]) false false false none none

/-- State for the C8 witness: `$x` bound to the array `[10, 20]`. -/
def c8St : St :=
  ⟨[.undefined, .number (.finite 10), .number (.finite 20), .array [1, 2] ArrayProps.noFlags],
   [⟨[("x", 3)], none⟩]⟩

/-- State for the C7 witness: a collected step sequence (cell 4) whose
entries are a plain array (cell 2) and a `CONS` array (cell 3). -/
def c7St : St :=
  ⟨[.undefined, .number (.finite 1), .array [1] ArrayProps.noFlags,
    .array [1] ArrayProps.consFlags, .array [2, 3] ArrayProps.seqFlags],
   [⟨[], none⟩]⟩

/-- State for the C9 counterexample: an arity-0 native function (cell 1)
and a one-element evaluated-argument array (cell 3). -/
def c9St : St :=
  ⟨[.undefined, .nativeFn0 "zero" (.constNum 7), .number (.finite 1),
    .array [2] ArrayProps.noFlags],
   [⟨[], none⟩]⟩

/-- State for the C9 witness: an arity-2 native function (cell 1) and a
one-element evaluated-argument array (cell 3). -/
def c9St2 : St :=
  ⟨[.undefined, .nativeFn2 "app" .appendfn, .number (.finite 1),
    .array [2] ArrayProps.noFlags],
   [⟨[], none⟩]⟩

/-- Group accumulator for the C6 witness: key `"k"` owned by pair 0 with
bucket data at cell 2. -/
def c6Groups : Groups := [("k", 2, 0)]

/-- State for the C6 witness: a number at cell 1 (bucket data at 2). -/
def c6St : St :=
  ⟨[.undefined, .number (.finite 1), .number (.finite 2)], [⟨[], none⟩]⟩

/-- Pool of `c6St` after the key expression `"k"` has been evaluated. -/
def c6StKey : St :=
  ⟨[.undefined, .number (.finite 1), .number (.finite 2), .string "k"], [⟨[], none⟩]⟩

/-- Pool of `st0` after evaluating the right operand `0` of `6 / 0`. -/
def c4StA : St := ⟨[.undefined, .number (.finite 0)], [⟨[], none⟩]⟩

/-- Pool of `c4StA` after evaluating the left operand `6` of `6 / 0`. -/
def c4StB : St :=
  ⟨[.undefined, .number (.finite 0), .number (.finite 6)], [⟨[], none⟩]⟩

/-- Pool of `st0` after evaluating the right operand `2` of `1 = 2`. -/
def c5StA : St := ⟨[.undefined, .number (.finite 2)], [⟨[], none⟩]⟩

/-- Pool of `c5StA` after evaluating the left operand `1` of `1 = 2`. -/
def c5StB : St :=
  ⟨[.undefined, .number (.finite 2), .number (.finite 1)], [⟨[], none⟩]⟩

/-! ## Pool access lemmas -/

theorem St.getKind_of_ge (st : St) (i : Nat) (h : st.pool.length ≤ i) :
    st.getKind i = .undefined := by
  unfold St.getKind
  exact List.getD_eq_default _ _ h

theorem St.lt_of_getKind_array {st : St} {i : Nat} {xs : List Nat} {p : ArrayProps}
    (h : st.getKind i = .array xs p) : i < st.pool.length := by
  by_contra hc
  rw [St.getKind_of_ge st i (Nat.le_of_not_lt hc)] at h
  exact ValueKind.noConfusion h

theorem getD_append_singleton {α : Type} (l : List α) (c d : α) :
    (l ++ [c]).getD l.length d = c := by
  rw [List.getD_append_right _ _ _ _ (le_refl _)]
  simp

theorem set_append_singleton {α : Type} (l : List α) (c c' : α) :
    (l ++ [c]).set l.length c' = l ++ [c'] := by
  rw [List.set_append]
  simp

theorem St.getKind_setKind_self {st : St} {i : Nat} (h : i < st.pool.length)
    (k : ValueKind) : (st.setKind i k).getKind i = k := by
  simp [St.setKind, St.getKind, List.getD_eq_getElem?_getD, List.getElem?_set_self h]

theorem St.getKind_setKind_ne {st : St} {i j : Nat} (h : i ≠ j) (k : ValueKind) :
    (st.setKind i k).getKind j = st.getKind j := by
  simp [St.setKind, St.getKind, List.getD_eq_getElem?_getD, List.getElem?_set_ne h]

theorem St.updateProps_getKind_self {st : St} {i : Nat} {xs : List Nat} {p : ArrayProps}
    (h : st.getKind i = .array xs p) (f : ArrayProps → ArrayProps) :
    (st.updateProps i f).getKind i = .array xs (f p) := by
  rw [St.updateProps, h]
  exact St.getKind_setKind_self (St.lt_of_getKind_array h) _

/-! ## Claim C1 -/

/-- C1 (counterexample): the top-level evaluation of the range
expression `1..2` returns an array of length two that still carries the
`SEQUENCE` flag — the post-dispatch processing does not collapse
sequences of two or more elements, so the claim that a top-level result
is never a `SEQUENCE` is false. -/
theorem c1_counterexample :
    resultKind (evaluate 3 c1Node 0 0 st0) =
      some (.array [4, 5] ArrayProps.seqFlags) := by
  rfl

/-- C1 (amended): the post-dispatch processing collapses a `SEQUENCE`
result only when it is empty (to `Undefined`) or has exactly one element
(unwrapped unless `SINGLETON`); a `SEQUENCE` of two or more elements is
returned to the caller unchanged (up to the `keep_array` singleton
marking) and still carries the `SEQUENCE` flag. -/
theorem c1_seq_of_two_survives (node : Node) (r : Nat) (st : St) (xs : List Nat)
    (p : ArrayProps) (harr : st.getKind r = .array xs p) (hseq : p.sequence = true)
    (hlen : 2 ≤ xs.length) :
    postProcess node r st =
      (r, if node.keepArray then st.updateProps r (fun q => { q with singleton := true }) else st)
    ∧ (((if node.keepArray then st.updateProps r (fun q => { q with singleton := true })
          else st).propsOf r).sequence = true) := by
  have hupd := St.updateProps_getKind_self harr (fun q => { q with singleton := true })
  have h0 : (xs.length == 0) = false := by
    simp only [Bool.eq_false_iff, ne_eq, beq_iff_eq]
    omega
  have h1 : (xs.length == 1) = false := by
    simp only [Bool.eq_false_iff, ne_eq, beq_iff_eq]
    omega
  cases hka : node.keepArray <;>
    simp [postProcess, St.propsOf, St.lenV, St.arrItems, harr, hseq, hka, hupd, h0, h1]

/-- C1 (witness for the amended theorem) at a concrete sequence of
length two. -/
theorem c1_seq_of_two_survives_witness :
    c7St.getKind 4 = .array [2, 3] ArrayProps.seqFlags ∧
    (postProcess (mkNode .null) 4 c7St =
      (4, if (mkNode .null).keepArray then
            c7St.updateProps 4 (fun q => { q with singleton := true }) else c7St)
    ∧ (((if (mkNode .null).keepArray then
            c7St.updateProps 4 (fun q => { q with singleton := true })
          else c7St).propsOf 4).sequence = true)) :=
  ⟨rfl, c1_seq_of_two_survives (mkNode .null) 4 c7St [2, 3] ArrayProps.seqFlags rfl rfl
    (by decide)⟩

/-! ## Claim C2 -/

/-- C2 (code bug): on the range `0..10000000`, whose span 10,000,001
exceeds the 10,000,000 limit, the evaluator hits the `unreachable!()`
placed where the `D2014` / `RangeTooLarge` error should be raised (the
`TODO: D2014` comment marks the intent), so evaluation panics instead of
failing with `RangeTooLarge`. -/
theorem c2_range_too_large_panics :
    evaluate 3 c2Node 0 0 st0 = .err (.panicked .unreachableCode) := by
  rfl

/-! ## Claim C3 -/

/-- C3 (counterexample): in `$x + ($x := 5)` the evaluator returns 10,
which is only possible when the right operand (the binding) runs before
the left; under the claimed left-then-right order the left operand reads
an unbound `$x` and the whole expression is `Undefined`, as the
spec-side left-then-right evaluation shows. -/
theorem c3_counterexample :
    resultKind (evaluate 4 c3Node 0 0 st0) = some (.number (.finite 10)) ∧
    resultKind (specLeftThenRightBinOp (evaluate 3) c3Node .add c3Lhs c3Rhs 0 0 st0) =
      some .undefined := by
  refine ⟨?_, by rfl⟩
  have h : resultKind (evaluate 4 c3Node 0 0 st0) =
      some (.number (.finite ((5 : ℚ) + 5))) := by rfl
  rw [h]
  norm_num

/-- C3 (amended): for every binary operator other than `Bind`, the
right operand is evaluated first and the left operand second
(right-then-left), after which the operator logic runs on the two
values; the order is observable through bindings made in one operand
and read by the other. -/
theorem c3_rhs_before_lhs (ev : EvalCont) (node : Node) (op : BinaryOp) (l r : Node)
    (input frame : Nat) (st : St) (hop : op ≠ .bind) :
    evaluateBinaryOp ev node op l r input frame st =
      (match ev r input frame st with
       | .err e => .err e
       | .ok rv st1 =>
         match ev l input frame st1 with
         | .err e => .err e
         | .ok lv st2 => binaryOpTail node op lv rv st2) := by
  unfold evaluateBinaryOp
  cases ev r input frame st with
  | err e => rfl
  | ok rv st1 => simp [hop]

/-- C3 (witness for the amended theorem) at the `Add` operator. -/
theorem c3_rhs_before_lhs_witness :
    BinaryOp.add ≠ BinaryOp.bind ∧
    evaluateBinaryOp (evaluate 2) c3Node .add c3Lhs c3Rhs 0 0 st0 =
      (match evaluate 2 c3Rhs 0 0 st0 with
       | .err e => .err e
       | .ok rv st1 =>
         match evaluate 2 c3Lhs 0 0 st1 with
         | .err e => .err e
         | .ok lv st2 => binaryOpTail c3Node .add lv rv st2) :=
  ⟨by decide, c3_rhs_before_lhs (evaluate 2) c3Node .add c3Lhs c3Rhs 0 0 st0 (by decide)⟩

/-! ## Claim C4 -/

/-- C4 (counterexample): in `"a" + $nope` the right operand evaluates to
`Undefined`, yet the result is the error `LeftSideNotNumber` rather than
`Undefined` — the left operand is type-checked before the right
operand's undefinedness can propagate. -/
theorem c4_counterexample :
    evaluate 3 c4Node 0 0 st0 = .err (.error (.leftSideNotNumber 0 .add)) ∧
    resultKind (evaluate 2 (mkNode (.var "nope")) 0 0 st0) = some .undefined :=
  ⟨by rfl, by rfl⟩

/-! ## Claim C10 -/

/-- C10: a `Bind` expression whose left-hand node is not a `Var`
behaves exactly as its right-hand side: the evaluated rhs value is
returned, no binding is created, the frames are exactly those produced
by the rhs evaluation itself, and no error beyond the rhs evaluation's
own is raised. -/
theorem c10_bind_non_var (ev : EvalCont) (node : Node) (l r : Node) (input frame : Nat)
    (st : St) (hnv : isVarNode l = false) :
    evaluateBinaryOp ev node .bind l r input frame st = ev r input frame st := by
  unfold evaluateBinaryOp
  cases h : ev r input frame st with
  | err e => rfl
  | ok rv st1 =>
    simp only [if_pos rfl]
    unfold isVarNode at hnv
    cases hk : l.kind <;> simp_all

/-- C10 (witness): binding to a number literal on the left. -/
theorem c10_bind_non_var_witness :
    isVarNode (numNode 1) = false ∧
    evaluateBinaryOp (evaluate 2) c3Node .bind (numNode 1) (numNode 5) 0 0 st0 =
      evaluate 2 (numNode 5) 0 0 st0 :=
  ⟨rfl, c10_bind_non_var (evaluate 2) c3Node (numNode 1) (numNode 5) 0 0 st0 rfl⟩

/-! ## Loop lemmas for the step collapse -/

theorem St.getKind_app_old (st : St) (c : ValueKind) {x : Nat} (h : x < st.pool.length) :
    ({ st with pool := st.pool ++ [c] } : St).getKind x = st.getKind x := by
  show (st.pool ++ [c]).getD x .undefined = st.pool.getD x .undefined
  exact List.getD_append _ _ _ _ h

theorem pushIndex_last (base : List ValueKind) (fr : List FrameCell) (acc : List Nat)
    (p : ArrayProps) (v : Nat) :
    (⟨base ++ [.array acc p], fr⟩ : St).pushIndex base.length v
      = ⟨base ++ [.array (acc ++ [v]) p], fr⟩ := by
  simp [St.pushIndex, St.getKind, getD_append_singleton, St.setKind, set_append_singleton]

theorem foldl_pushIndex_last (ms : List Nat) (base : List ValueKind) (fr : List FrameCell)
    (acc : List Nat) (p : ArrayProps) :
    ms.foldl (fun s m => s.pushIndex base.length m) (⟨base ++ [.array acc p], fr⟩ : St)
      = ⟨base ++ [.array (acc ++ ms) p], fr⟩ := by
  induction ms generalizing acc with
  | nil => simp
  | cons m rest ih =>
    rw [List.foldl_cons, pushIndex_last]
    rw [ih (acc ++ [m])]
    simp

theorem collapseLoop_spec (xs : List Nat) : ∀ (st : St) (acc : List Nat),
    (∀ x ∈ xs, x < st.pool.length) →
    collapseLoop xs st.pool.length
        ({ st with pool := st.pool ++ [.array acc ArrayProps.seqFlags] }) =
      { st with pool := st.pool ++ [.array (acc ++ stepFlatten st xs) ArrayProps.seqFlags] } := by
  induction xs with
  | nil =>
    intro st acc _
    simp [collapseLoop, stepFlatten]
  | cons x rest ih =>
    intro st acc h
    have hx : x < st.pool.length := h x (List.mem_cons_self x rest)
    have hgk := St.getKind_app_old st (.array acc ArrayProps.seqFlags) hx
    have hflat : stepFlatten st (x :: rest) =
        (if st.isArray x && !((st.propsOf x).cons) then st.arrItems x else [x])
          ++ stepFlatten st rest := by
      simp [stepFlatten]
    unfold collapseLoop
    have hcond : (!(({ st with pool := st.pool ++ [.array acc ArrayProps.seqFlags] } : St).isArray x)
        || (({ st with pool := st.pool ++ [.array acc ArrayProps.seqFlags] } : St).propsOf x).cons)
        = (!(st.isArray x) || (st.propsOf x).cons) := by
      simp [St.isArray, St.propsOf, hgk]
    have hitems : ({ st with pool := st.pool ++ [.array acc ArrayProps.seqFlags] } : St).arrItems x
        = st.arrItems x := by
      simp [St.arrItems, hgk]
    rw [hcond, hitems]
    by_cases hc : (!(st.isArray x) || (st.propsOf x).cons) = true
    · rw [if_pos hc]
      have hpush := pushIndex_last st.pool st.frames acc ArrayProps.seqFlags x
      rw [show (⟨st.pool ++ [ValueKind.array acc ArrayProps.seqFlags], st.frames⟩ : St)
            = ({ st with pool := st.pool ++ [.array acc ArrayProps.seqFlags] } : St) from rfl] at hpush
      rw [hpush]
      rw [show (⟨st.pool ++ [ValueKind.array (acc ++ [x]) ArrayProps.seqFlags], st.frames⟩ : St)
            = ({ st with pool := st.pool ++ [.array (acc ++ [x]) ArrayProps.seqFlags] } : St) from rfl]
      rw [ih st (acc ++ [x]) (fun y hy => h y (List.mem_cons_of_mem x hy))]
      have hentry : (if st.isArray x && !((st.propsOf x).cons) then st.arrItems x else [x]) = [x] := by
        cases ha : st.isArray x <;> cases hb : (st.propsOf x).cons <;> simp_all
      rw [hflat, hentry]
      simp
    · rw [if_neg hc]
      have hfold := foldl_pushIndex_last (st.arrItems x) st.pool st.frames acc ArrayProps.seqFlags
      rw [show (⟨st.pool ++ [ValueKind.array acc ArrayProps.seqFlags], st.frames⟩ : St)
            = ({ st with pool := st.pool ++ [.array acc ArrayProps.seqFlags] } : St) from rfl] at hfold
      rw [hfold]
      rw [show (⟨st.pool ++ [ValueKind.array (acc ++ st.arrItems x) ArrayProps.seqFlags], st.frames⟩ : St)
            = ({ st with pool := st.pool ++ [.array (acc ++ st.arrItems x) ArrayProps.seqFlags] } : St) from rfl]
      rw [ih st (acc ++ st.arrItems x) (fun y hy => h y (List.mem_cons_of_mem x hy))]
      have hentry : (if st.isArray x && !((st.propsOf x).cons) then st.arrItems x else [x])
          = st.arrItems x := by
        cases ha : st.isArray x <;> cases hb : (st.propsOf x).cons <;> simp_all
      rw [hflat, hentry]
      simp

/-! ## Claim C7 -/

/-- C7: the collapse at the end of step evaluation — when this is the
last step and the collected sequence has exactly one element that is an
array without the `SEQUENCE` flag, that element is returned directly;
otherwise a fresh `SEQUENCE` is produced in which every entry that is an
array lacking the `CONS` flag is spliced in (flattened exactly one
level) and every other entry is appended as-is. -/
theorem c7_step_collapse (last : Bool) (r : Nat) (st : St) (xs : List Nat)
    (p : ArrayProps) (harr : st.getKind r = .array xs p)
    (hlive : ∀ x ∈ xs, x < st.pool.length) :
    stepCollapse last r st =
      (if last && (xs.length == 1) && st.isArray (xs.getD 0 0)
          && !((st.propsOf (xs.getD 0 0)).sequence) then
         (xs.getD 0 0, st)
       else
         (st.pool.length,
          { st with pool := st.pool ++ [.array (stepFlatten st xs) ArrayProps.seqFlags] })) := by
  have hrlt : r < st.pool.length := St.lt_of_getKind_array harr
  have hlen : st.lenV r = xs.length := by simp [St.lenV, St.arrItems, harr]
  have hmem : st.getMember r 0 = xs.getD 0 0 := by simp [St.getMember, harr]
  unfold stepCollapse
  rw [hlen, hmem]
  by_cases hc : (last && (xs.length == 1) && st.isArray (xs.getD 0 0)
      && !((st.propsOf (xs.getD 0 0)).sequence)) = true
  · rw [if_pos hc, if_pos hc]
  · rw [if_neg hc, if_neg hc]
    have halloc : st.alloc (.array [] ArrayProps.seqFlags)
        = (st.pool.length, { st with pool := st.pool ++ [.array [] ArrayProps.seqFlags] }) := rfl
    rw [halloc]
    have hitems : ({ st with pool := st.pool ++ [.array [] ArrayProps.seqFlags] } : St).arrItems r
        = xs := by
      simp [St.arrItems, St.getKind_app_old st _ hrlt, harr]
    simp only [hitems]
    rw [collapseLoop_spec xs st [] hlive]
    simp

/-- C7 (witness): a collected sequence `[plainArray, consArray]` — the
plain array is spliced, the `CONS` array is kept whole. -/
theorem c7_step_collapse_witness :
    c7St.getKind 4 = .array [2, 3] ArrayProps.seqFlags ∧
    stepCollapse false 4 c7St =
      (if false && (([2, 3] : List Nat).length == 1) && c7St.isArray (([2, 3] : List Nat).getD 0 0)
          && !((c7St.propsOf (([2, 3] : List Nat).getD 0 0)).sequence) then
         (([2, 3] : List Nat).getD 0 0, c7St)
       else
         (c7St.pool.length,
          { c7St with pool := c7St.pool ++ [.array (stepFlatten c7St [2, 3]) ArrayProps.seqFlags] })) :=
  ⟨rfl, c7_step_collapse false 4 c7St [2, 3] ArrayProps.seqFlags rfl (by decide)⟩

/-! ## Claim C4 (amended theorem) -/

/-- C4 (amended): for `Add/Subtract/Multiply/Divide/Modulus` the left
operand is examined first: `Undefined` yields `Undefined`; a value that
is not a non-NaN number raises `LeftSideNotNumber` — even when the
right operand is `Undefined`; then the right operand likewise yields
`Undefined` or raises `RightSideNotNumber`; with two numbers, an
infinite arithmetic result raises `NumberOutOfRange` and otherwise the
numeric result is returned. -/
theorem c4_arith_characterization (ev : EvalCont) (node : Node) (op : BinaryOp)
    (l r : Node) (input frame : Nat) (st : St) (rv : Nat) (st1 : St) (lv : Nat)
    (st2 : St) (hop : isArithOp op = true)
    (hr : ev r input frame st = .ok rv st1)
    (hl : ev l input frame st1 = .ok lv st2) :
    evaluateBinaryOp ev node op l r input frame st =
      (match st2.getKind lv with
       | .undefined => .ok 0 st2
       | .number ln =>
         if ln.isNan then .err (.error (.leftSideNotNumber node.position op))
         else
           match st2.getKind rv with
           | .undefined => .ok 0 st2
           | .number rn =>
             if rn.isNan then .err (.error (.rightSideNotNumber node.position op))
             else
               if (arithOp op ln rn).isInfinite then
                 .err (.error (.numberOutOfRange (arithOp op ln rn)))
               else
                 .ok (st2.alloc (.number (arithOp op ln rn))).1
                   (st2.alloc (.number (arithOp op ln rn))).2
           | _ => .err (.error (.rightSideNotNumber node.position op))
       | _ => .err (.error (.leftSideNotNumber node.position op))) := by
  have hbind : op ≠ .bind := by cases op <;> simp_all [isArithOp]
  simp only [evaluateBinaryOp, hr, if_neg hbind, hl]
  cases op <;> first
    | rfl
    | simp [isArithOp] at hop

/-- C4 (witness for the amended theorem): division `6 / 0`, where both
operands are numbers and the quotient is infinite. -/
theorem c4_arith_characterization_witness :
    isArithOp .divide = true ∧
    evaluate 1 (numNode 0) 0 0 st0 = .ok 1 c4StA ∧
    evaluate 1 (numNode 6) 0 0 c4StA = .ok 2 c4StB ∧
    evaluateBinaryOp (evaluate 1) c3Node .divide (numNode 6) (numNode 0) 0 0 st0 =
      (match c4StB.getKind 2 with
       | .undefined => .ok 0 c4StB
       | .number ln =>
         if ln.isNan then .err (.error (.leftSideNotNumber c3Node.position .divide))
         else
           match c4StB.getKind 1 with
           | .undefined => .ok 0 c4StB
           | .number rn =>
             if rn.isNan then .err (.error (.rightSideNotNumber c3Node.position .divide))
             else
               if (arithOp .divide ln rn).isInfinite then
                 .err (.error (.numberOutOfRange (arithOp .divide ln rn)))
               else
                 .ok (c4StB.alloc (.number (arithOp .divide ln rn))).1
                   (c4StB.alloc (.number (arithOp .divide ln rn))).2
           | _ => .err (.error (.rightSideNotNumber c3Node.position .divide))
       | _ => .err (.error (.leftSideNotNumber c3Node.position .divide))) :=
  ⟨rfl, by rfl, by rfl,
    c4_arith_characterization (evaluate 1) c3Node .divide (numNode 6) (numNode 0) 0 0
      st0 1 c4StA 2 c4StB rfl (by rfl) (by rfl)⟩

/-! ## Claim C5 -/

/-- C5 (counterexample): evaluating `[[]] = [[]]` yields `false`, even
though the two operands (the right one allocated at handle 1, the left
one at handle 3) are structurally equal one-element arrays by the
spec-side deep structural equality — `ValueKind::eq` compares arrays by
their member-handle vectors, not by the members' values, so the claimed
structural equality over the element sequence does not hold. -/
theorem c5_counterexample :
    resultKind (evaluate 4 c5Node 0 0 st0) = some (.bool false) ∧
    (match evaluate 4 c5Node 0 0 st0 with
     | .ok _ st => specStructuralEq st.pool 10 3 1
     | .err _ => false) = true :=
  ⟨by rfl, by rfl⟩

/-- C5 (amended): for `=` and `!=` an `Undefined` operand yields
`false`; otherwise the result is handle-level structural comparison:
`Null`, `Bool`, `Number`, `String` compare by value, an `Array` by its
vector of member handles, an `Object` by its key-to-handle mapping —
so structurally equal containers stored at distinct handles may compare
unequal. -/
theorem c5_equality_by_handles (ev : EvalCont) (node : Node) (op : BinaryOp)
    (l r : Node) (input frame : Nat) (st : St) (rv : Nat) (st1 : St) (lv : Nat)
    (st2 : St) (hop : op = .equal ∨ op = .notEqual)
    (hr : ev r input frame st = .ok rv st1)
    (hl : ev l input frame st1 = .ok lv st2) :
    (evaluateBinaryOp ev node op l r input frame st =
      (if st2.isUndef lv || st2.isUndef rv then
         .ok (st2.alloc (.bool false)).1 (st2.alloc (.bool false)).2
       else
         .ok (st2.alloc (.bool (if op = .equal then valueEq st2 lv rv
                else !(valueEq st2 lv rv)))).1
           (st2.alloc (.bool (if op = .equal then valueEq st2 lv rv
                else !(valueEq st2 lv rv)))).2))
    ∧ (∀ xs p ys q, kindEq (.array xs p) (.array ys q) = (xs == ys))
    ∧ (∀ les res, kindEq (.object les) (.object res) = objMapEq les res)
    ∧ (∀ a b, kindEq (.number a) (.number b) = Num.valEq a b)
    ∧ (∀ a b, kindEq (.string a) (.string b) = (a == b))
    ∧ (∀ a b, kindEq (.bool a) (.bool b) = (a == b))
    ∧ kindEq .null .null = true := by
  refine ⟨?_, fun _ _ _ _ => rfl, fun _ _ => rfl, fun _ _ => rfl, fun _ _ => rfl,
    fun _ _ => rfl, rfl⟩
  have hbind : op ≠ .bind := by rcases hop with h | h <;> subst h <;> decide
  simp only [evaluateBinaryOp, hr, if_neg hbind, hl]
  rcases hop with h | h <;> subst h <;> simp [binaryOpTail]

/-- C5 (witness for the amended theorem): `1 = 2` compares two number
values. -/
theorem c5_equality_by_handles_witness :
    evaluate 1 (numNode 2) 0 0 st0 = .ok 1 c5StA ∧
    evaluate 1 (numNode 1) 0 0 c5StA = .ok 2 c5StB ∧
    (evaluateBinaryOp (evaluate 1) c5Node .equal (numNode 1) (numNode 2) 0 0 st0 =
      (if c5StB.isUndef 2 || c5StB.isUndef 1 then
         .ok (c5StB.alloc (.bool false)).1 (c5StB.alloc (.bool false)).2
       else
         .ok (c5StB.alloc (.bool (if BinaryOp.equal = .equal then valueEq c5StB 2 1
                else !(valueEq c5StB 2 1)))).1
           (c5StB.alloc (.bool (if BinaryOp.equal = .equal then valueEq c5StB 2 1
                else !(valueEq c5StB 2 1)))).2))
    ∧ (∀ xs p ys q, kindEq (.array xs p) (.array ys q) = (xs == ys))
    ∧ (∀ les res, kindEq (.object les) (.object res) = objMapEq les res)
    ∧ (∀ a b, kindEq (.number a) (.number b) = Num.valEq a b)
    ∧ (∀ a b, kindEq (.string a) (.string b) = (a == b))
    ∧ (∀ a b, kindEq (.bool a) (.bool b) = (a == b))
    ∧ kindEq .null .null = true :=
  ⟨by rfl, by rfl,
    c5_equality_by_handles (evaluate 1) c5Node .equal (numNode 1) (numNode 2) 0 0 st0
      1 c5StA 2 c5StB (Or.inl rfl) (by rfl) (by rfl)⟩

/-! ## Claim C6 -/

/-- C6: during group evaluation, when an item's evaluated key string is
already present in the group map, a bucket created by a different pair
index raises `MultipleKeys`, and a bucket created by the same pair index
has the item appended to it via host `append`. -/
theorem c6_group_key_collision (ev : EvalCont) (pos frame item i : Nat)
    (keyNode : Node) (groups : Groups) (st : St) (kv : Nat) (st1 : St) (s : String)
    (data j : Nat)
    (hkey : ev keyNode item frame st = .ok kv st1)
    (hstr : st1.getKind kv = .string s)
    (hfound : groupsFind groups s = some (data, j)) :
    processGroupPair ev pos frame item i keyNode groups st =
      (if j = i then
         .ok (groupsInsert groups s ((fnAppend st1 data item).1, i)) (fnAppend st1 data item).2
       else .err (.error (.multipleKeys pos kv))) := by
  simp only [processGroupPair, hkey, hstr, hfound]
  by_cases h : j = i <;> simp [h]

/-- C6 (witness): the key `"k"` collides with a bucket created by the
same pair index, so the item is appended. -/
theorem c6_group_key_collision_witness :
    evaluate 1 (mkNode (.strLit "k")) 1 0 c6St = .ok 3 c6StKey ∧
    c6StKey.getKind 3 = .string "k" ∧
    groupsFind c6Groups "k" = some (2, 0) ∧
    processGroupPair (evaluate 1) 0 0 1 0 (mkNode (.strLit "k")) c6Groups c6St =
      (if (0 : Nat) = 0 then
         .ok (groupsInsert c6Groups "k" ((fnAppend c6StKey 2 1).1, 0))
           (fnAppend c6StKey 2 1).2
       else .err (.error (.multipleKeys 0 3))) :=
  ⟨by rfl, rfl, rfl,
    c6_group_key_collision (evaluate 1) 0 0 1 0 (mkNode (.strLit "k")) c6Groups c6St
      3 c6StKey "k" 2 0 (by rfl) rfl rfl⟩

/-! ## Numeric filter lemmas -/

theorem getIndexU_in_range (q : ℚ) (len : Nat) (hlen : (len : ℤ) < 2 ^ 63)
    (h : 0 ≤ (if ⌊q⌋ < 0 then ⌊q⌋ + (len : ℤ) else ⌊q⌋)
       ∧ (if ⌊q⌋ < 0 then ⌊q⌋ + (len : ℤ) else ⌊q⌋) < (len : ℤ)) :
    (getIndexU (.finite q) len : ℤ) = (if ⌊q⌋ < 0 then ⌊q⌋ + (len : ℤ) else ⌊q⌋) := by
  unfold getIndexU Num.floorToIsize
  dsimp only
  split_ifs at h ⊢ <;> omega

theorem getIndexU_out_of_range (q : ℚ) (len : Nat) (hlen : (len : ℤ) < 2 ^ 63)
    (h : ¬(0 ≤ (if ⌊q⌋ < 0 then ⌊q⌋ + (len : ℤ) else ⌊q⌋)
       ∧ (if ⌊q⌋ < 0 then ⌊q⌋ + (len : ℤ) else ⌊q⌋) < (len : ℤ))) :
    len ≤ getIndexU (.finite q) len := by
  unfold getIndexU Num.floorToIsize
  dsimp only
  push_neg at h
  split_ifs at h ⊢ <;> omega

/-- Behaviour of `evaluate_filter` on a literal-number filter applied to
an array: a fresh `SEQUENCE` cell is allocated, the indexed member is
looked up, and the result is the empty sequence (member undefined or out
of range), the member itself (an array), or the sequence holding the
member. -/
theorem filter_numeric_spec (ev : EvalCont) (q : ℚ) (inp frame : Nat) (st : St)
    (xs : List Nat) (p : ArrayProps) (harr : st.getKind inp = .array xs p) :
    evaluateFilter ev (c8FilterNode q) inp frame st =
      (if ({ st with pool := st.pool ++ [.array [] ArrayProps.seqFlags] } : St).isUndef
            (xs.getD (getIndexU (.finite q) xs.length) 0) then
         .ok st.pool.length { st with pool := st.pool ++ [.array [] ArrayProps.seqFlags] }
       else if ({ st with pool := st.pool ++ [.array [] ArrayProps.seqFlags] } : St).isArray
            (xs.getD (getIndexU (.finite q) xs.length) 0) then
         .ok (xs.getD (getIndexU (.finite q) xs.length) 0)
           { st with pool := st.pool ++ [.array [] ArrayProps.seqFlags] }
       else
         .ok st.pool.length
           (({ st with pool := st.pool ++ [.array [] ArrayProps.seqFlags] } : St).pushIndex
             st.pool.length (xs.getD (getIndexU (.finite q) xs.length) 0))) := by
  have hlt := St.lt_of_getKind_array harr
  have hga := St.getKind_app_old st (.array [] ArrayProps.seqFlags) hlt
  have hisarr : ({ st with pool := st.pool ++ [.array [] ArrayProps.seqFlags] } : St).isArray inp
      = true := by
    simp [St.isArray, hga, harr]
  have hlenV : ({ st with pool := st.pool ++ [.array [] ArrayProps.seqFlags] } : St).lenV inp
      = xs.length := by
    simp [St.lenV, St.arrItems, hga, harr]
  have hgm : ∀ k, ({ st with pool := st.pool ++ [.array [] ArrayProps.seqFlags] } : St).getMember
      inp k = xs.getD k 0 := by
    intro k
    simp [St.getMember, hga, harr]
  unfold evaluateFilter
  simp only [St.alloc, St.wrapIfNeeded, hisarr, if_true, c8FilterNode, mkNode, Node.kind,
    hlenV, hgm]

theorem St.isUndef_true_iff (st : St) (i : Nat) :
    st.isUndef i = true ↔ st.getKind i = .undefined := by
  unfold St.isUndef
  cases st.getKind i <;> simp

theorem St.isArray_exists {st : St} {i : Nat} (h : st.isArray i = true) :
    ∃ ys pe, st.getKind i = .array ys pe := by
  unfold St.isArray at h
  cases hk : st.getKind i <;> rw [hk] at h <;> try exact Bool.noConfusion h
  exact ⟨_, _, rfl⟩

theorem postProcess_nonseq (node : Node) (r : Nat) (st : St)
    (h : (st.propsOf r).sequence = false) : postProcess node r st = (r, st) := by
  unfold postProcess
  simp only [h, Bool.false_eq_true, if_false]

theorem postProcess_empty_seq (node : Node) (r : Nat) (st : St)
    (hk : st.getKind r = .array [] ArrayProps.seqFlags) (hka : node.keepArray = false) :
    postProcess node r st = (0, st) := by
  have hprops : st.propsOf r = ArrayProps.seqFlags := by
    unfold St.propsOf
    rw [hk]
  have hlen : st.lenV r = 0 := by
    unfold St.lenV St.arrItems
    rw [hk]
    rfl
  unfold postProcess
  rw [hprops, hka]
  simp [hlen, hprops, ArrayProps.seqFlags]

theorem postProcess_single_seq (node : Node) (r e : Nat) (st : St)
    (hk : st.getKind r = .array [e] ArrayProps.seqFlags) (hka : node.keepArray = false) :
    postProcess node r st = (e, st) := by
  have hprops : st.propsOf r = ArrayProps.seqFlags := by
    unfold St.propsOf
    rw [hk]
  have hlen : st.lenV r = 1 := by
    unfold St.lenV St.arrItems
    rw [hk]
    rfl
  have hgm : st.getMember r 0 = e := by
    unfold St.getMember
    rw [hk]
    rfl
  unfold postProcess
  rw [hprops, hka]
  simp [hlen, hgm, hprops, ArrayProps.seqFlags]

/-- Reduction of the top evaluation level for a variable reference with
a single attached predicate: dispatch the lookup, run the filter, then
post-process. -/
theorem evaluate_var_pred_step (fuel : Nat) (q : ℚ) (input frame ax r2 : Nat)
    (st st2 : St) (hlook : st.lookupVar frame "x" = some ax)
    (hfilt : evaluateFilter (fun n i f s => evaluate fuel n i f s) (c8FilterNode q)
      ax frame st = .ok r2 st2) :
    evaluate (fuel + 1) (c8VarNode q) input frame st =
      .ok (postProcess (c8VarNode q) r2 st2).1 (postProcess (c8VarNode q) r2 st2).2 := by
  have hvar : evaluateVar st input frame "x" = .ok ax st := by
    unfold evaluateVar
    rw [if_neg (by decide), hlook]
  simp only [evaluate, evalNode, c8VarNode, mkNode, Node.kind, Node.predicates, hvar,
    predLoop, hfilt]

/-! ## Claim C8 -/

/-- C8: a numeric filter predicate `[q]` applied to an array `$x` of
length `len` returns the element at `floor(q)` when `0 ≤ floor(q) <
len`, the element at `len + floor(q)` when `-len ≤ floor(q) < 0`, and
`Undefined` when the index is out of range on either side.  The
hypotheses state that the pool is well formed (canonical undefined cell,
live member handles, `Vec`-bounded length) and that the element handles
hold user values (no `SEQUENCE`-flagged arrays, which only the evaluator
itself creates). -/
theorem c8_numeric_filter (fuel : Nat) (q : ℚ) (input frame ax : Nat) (st : St)
    (xs : List Nat) (p : ArrayProps)
    (hlook : st.lookupVar frame "x" = some ax)
    (harr : st.getKind ax = .array xs p)
    (hlen : (xs.length : ℤ) < 2 ^ 63)
    (h0 : st.pool.head? = some .undefined)
    (hlive : ∀ x ∈ xs, x < st.pool.length)
    (helem : ∀ x ∈ xs, ((st.propsOf x).sequence && st.isArray x) = false) :
    resultKind (evaluate (fuel + 1) (c8VarNode q) input frame st) =
      some (if 0 ≤ (if ⌊q⌋ < 0 then ⌊q⌋ + (xs.length : ℤ) else ⌊q⌋)
               ∧ (if ⌊q⌋ < 0 then ⌊q⌋ + (xs.length : ℤ) else ⌊q⌋) < (xs.length : ℤ)
            then st.getKind (xs.getD (if ⌊q⌋ < 0 then ⌊q⌋ + (xs.length : ℤ) else ⌊q⌋).toNat 0)
            else .undefined) := by
  have h0lt : 0 < st.pool.length := by
    cases hp : st.pool with
    | nil => rw [hp] at h0; exact Option.noConfusion h0
    | cons a t => simp [hp]
  have h0k : st.getKind 0 = .undefined := by
    cases hp : st.pool with
    | nil => rw [hp] at h0; exact Option.noConfusion h0
    | cons a t =>
      rw [hp] at h0
      simp at h0
      simp [St.getKind, hp, h0]
  have hfilt := filter_numeric_spec (fun n i f s => evaluate fuel n i f s) q ax frame st xs p harr
  have hgkL : ({ st with pool := st.pool ++ [.array [] ArrayProps.seqFlags] } : St).getKind
      st.pool.length = .array [] ArrayProps.seqFlags := by
    show (st.pool ++ [ValueKind.array [] ArrayProps.seqFlags]).getD st.pool.length .undefined = _
    exact getD_append_singleton _ _ _
  have hppEmpty : postProcess (c8VarNode q) st.pool.length
      { st with pool := st.pool ++ [.array [] ArrayProps.seqFlags] }
      = (0, { st with pool := st.pool ++ [.array [] ArrayProps.seqFlags] }) :=
    postProcess_empty_seq _ _ _ hgkL rfl
  by_cases hin : 0 ≤ (if ⌊q⌋ < 0 then ⌊q⌋ + (xs.length : ℤ) else ⌊q⌋)
      ∧ (if ⌊q⌋ < 0 then ⌊q⌋ + (xs.length : ℤ) else ⌊q⌋) < (xs.length : ℤ)
  · -- in range: the selected element comes back (by kind)
    have hidxeq := getIndexU_in_range q xs.length hlen hin
    have hidxlt : getIndexU (.finite q) xs.length < xs.length := by omega
    have hidxto : (if ⌊q⌋ < 0 then ⌊q⌋ + (xs.length : ℤ) else ⌊q⌋).toNat
        = getIndexU (.finite q) xs.length := by omega
    have hmem : xs.getD (getIndexU (.finite q) xs.length) 0 ∈ xs := by
      rw [List.getD_eq_getElem?_getD, List.getElem?_eq_getElem hidxlt]
      exact List.getElem_mem hidxlt
    have helt : xs.getD (getIndexU (.finite q) xs.length) 0 < st.pool.length :=
      hlive _ hmem
    have hgke : ({ st with pool := st.pool ++ [.array [] ArrayProps.seqFlags] } : St).getKind
        (xs.getD (getIndexU (.finite q) xs.length) 0)
        = st.getKind (xs.getD (getIndexU (.finite q) xs.length) 0) :=
      St.getKind_app_old st _ helt
    rw [if_pos hin]
    rw [hidxto]
    by_cases hu : ({ st with pool := st.pool ++ [.array [] ArrayProps.seqFlags] } : St).isUndef
        (xs.getD (getIndexU (.finite q) xs.length) 0) = true
    · -- element is Undefined: empty sequence collapses to the undefined handle
      have hk : st.getKind (xs.getD (getIndexU (.finite q) xs.length) 0) = .undefined := by
        rw [← hgke]
        exact (St.isUndef_true_iff _ _).mp hu
      have hfo : evaluateFilter (fun n i f s => evaluate fuel n i f s) (c8FilterNode q)
          ax frame st = .ok st.pool.length
            { st with pool := st.pool ++ [.array [] ArrayProps.seqFlags] } := by
        rw [hfilt, if_pos hu]
      rw [evaluate_var_pred_step fuel q input frame ax _ st _ hlook hfo, hppEmpty]
      simp only [resultKind]
      rw [St.getKind_app_old st _ h0lt, h0k, hk]
    · rw [Bool.not_eq_true] at hu
      by_cases ha : ({ st with pool := st.pool ++ [.array [] ArrayProps.seqFlags] } : St).isArray
          (xs.getD (getIndexU (.finite q) xs.length) 0) = true
      · -- element is a (non-SEQUENCE) array: returned whole, unchanged by post-processing
        obtain ⟨ys, pe, hk⟩ := St.isArray_exists ha
        have hkst : st.getKind (xs.getD (getIndexU (.finite q) xs.length) 0) = .array ys pe := by
          rw [← hgke]; exact hk
        have hseq : pe.sequence = false := by
          have hh := helem _ hmem
          rw [St.propsOf, hkst, St.isArray, hkst] at hh
          simpa using hh
        have hfo : evaluateFilter (fun n i f s => evaluate fuel n i f s) (c8FilterNode q)
            ax frame st = .ok (xs.getD (getIndexU (.finite q) xs.length) 0)
              { st with pool := st.pool ++ [.array [] ArrayProps.seqFlags] } := by
          rw [hfilt, if_neg (by rw [hu]; exact Bool.false_ne_true), if_pos ha]
        have hpp : postProcess (c8VarNode q) (xs.getD (getIndexU (.finite q) xs.length) 0)
            { st with pool := st.pool ++ [.array [] ArrayProps.seqFlags] }
            = (xs.getD (getIndexU (.finite q) xs.length) 0,
               { st with pool := st.pool ++ [.array [] ArrayProps.seqFlags] }) := by
          apply postProcess_nonseq
          unfold St.propsOf
          rw [hk]
          exact hseq
        rw [evaluate_var_pred_step fuel q input frame ax _ st _ hlook hfo, hpp]
        simp only [resultKind]
        rw [hgke]
      · -- scalar element: singleton sequence unwraps to the element
        rw [Bool.not_eq_true] at ha
        have hpush : ({ st with pool := st.pool ++ [.array [] ArrayProps.seqFlags] } : St).pushIndex
            st.pool.length (xs.getD (getIndexU (.finite q) xs.length) 0)
            = { st with pool := st.pool
                ++ [.array [xs.getD (getIndexU (.finite q) xs.length) 0] ArrayProps.seqFlags] } := by
          have hp := pushIndex_last st.pool st.frames [] ArrayProps.seqFlags
            (xs.getD (getIndexU (.finite q) xs.length) 0)
          simpa using hp
        have hfo : evaluateFilter (fun n i f s => evaluate fuel n i f s) (c8FilterNode q)
            ax frame st = .ok st.pool.length
              { st with pool := st.pool
                ++ [.array [xs.getD (getIndexU (.finite q) xs.length) 0] ArrayProps.seqFlags] } := by
          rw [hfilt, if_neg (by rw [hu]; exact Bool.false_ne_true),
            if_neg (by rw [ha]; exact Bool.false_ne_true), hpush]
        have hgkL2 : ({ st with pool := st.pool
            ++ [.array [xs.getD (getIndexU (.finite q) xs.length) 0] ArrayProps.seqFlags] } : St).getKind
            st.pool.length
            = .array [xs.getD (getIndexU (.finite q) xs.length) 0] ArrayProps.seqFlags := by
          show (st.pool ++ [ValueKind.array [xs.getD (getIndexU (.finite q) xs.length) 0]
            ArrayProps.seqFlags]).getD st.pool.length .undefined = _
          exact getD_append_singleton _ _ _
        have hpp : postProcess (c8VarNode q) st.pool.length
            { st with pool := st.pool
              ++ [.array [xs.getD (getIndexU (.finite q) xs.length) 0] ArrayProps.seqFlags] }
            = (xs.getD (getIndexU (.finite q) xs.length) 0,
               { st with pool := st.pool
                 ++ [.array [xs.getD (getIndexU (.finite q) xs.length) 0] ArrayProps.seqFlags] }) :=
          postProcess_single_seq _ _ _ _ hgkL2 rfl
        rw [evaluate_var_pred_step fuel q input frame ax _ st _ hlook hfo, hpp]
        simp only [resultKind]
        exact congrArg some (St.getKind_app_old st _ helt)
  · -- out of range: the member lookup yields the undefined handle
    have hge := getIndexU_out_of_range q xs.length hlen hin
    have hdef : xs.getD (getIndexU (.finite q) xs.length) 0 = 0 :=
      List.getD_eq_default _ _ hge
    have hu : ({ st with pool := st.pool ++ [.array [] ArrayProps.seqFlags] } : St).isUndef
        (xs.getD (getIndexU (.finite q) xs.length) 0) = true := by
      rw [hdef]
      exact (St.isUndef_true_iff _ _).mpr (by rw [St.getKind_app_old st _ h0lt]; exact h0k)
    have hfo : evaluateFilter (fun n i f s => evaluate fuel n i f s) (c8FilterNode q)
        ax frame st = .ok st.pool.length
          { st with pool := st.pool ++ [.array [] ArrayProps.seqFlags] } := by
      rw [hfilt, if_pos hu]
    rw [evaluate_var_pred_step fuel q input frame ax _ st _ hlook hfo, hppEmpty]
    simp only [resultKind]
    rw [if_neg hin, St.getKind_app_old st _ h0lt, h0k]

/-- C8 (witness): `$x[-1]` on the two-element array `[10, 20]` selects
the last element, 20. -/
theorem c8_numeric_filter_witness :
    c8St.lookupVar 0 "x" = some 3 ∧
    c8St.getKind 3 = .array [1, 2] ArrayProps.noFlags ∧
    resultKind (evaluate 1 (c8VarNode (-1)) 0 0 c8St) =
      some (if 0 ≤ (if ⌊(-1 : ℚ)⌋ < 0 then ⌊(-1 : ℚ)⌋ + (([1, 2] : List Nat).length : ℤ)
                    else ⌊(-1 : ℚ)⌋)
               ∧ (if ⌊(-1 : ℚ)⌋ < 0 then ⌊(-1 : ℚ)⌋ + (([1, 2] : List Nat).length : ℤ)
                    else ⌊(-1 : ℚ)⌋) < (([1, 2] : List Nat).length : ℤ)
            then c8St.getKind (([1, 2] : List Nat).getD
              (if ⌊(-1 : ℚ)⌋ < 0 then ⌊(-1 : ℚ)⌋ + (([1, 2] : List Nat).length : ℤ)
               else ⌊(-1 : ℚ)⌋).toNat 0)
            else .undefined) :=
  ⟨rfl, rfl,
    c8_numeric_filter 0 (-1) 0 0 3 c8St [1, 2] ArrayProps.noFlags rfl rfl (by decide)
      rfl (by decide) (by decide)⟩

/-! ## Claim C9 -/

/-- C9 (counterexample): an arity-0 native function applied to one
evaluated argument is simply invoked — the result is its value 7, not
the `ArgumentNotValid` error the claim requires for every argument-count
mismatch. -/
theorem c9_counterexample :
    resultKind (applyFunction (evaluate 1) 0 0 1 3 0 c9St) =
      some (.number (.finite 7)) := by
  rfl

/-- C9 (amended): for native functions of arity 1, 2 or 3 the argument
count is matched: arity 1 with zero arguments receives the input, a
count equal to the arity dispatches, and any other count raises
`ArgumentNotValid` with position `count + 1` when too few and
`arity + 1` when too many, carrying the function name; a native function
of arity 0 is invoked regardless of the argument count. -/
theorem c9_native_arity (ev : EvalCont) (pos input procV argsV frame : Nat) (st : St)
    (N : Nat) (nm : String) (f : HostFn)
    (hnat : natArity (st.getKind procV) = some (N, nm, f)) :
    applyFunction ev pos input procV argsV frame st =
      (if N = 0 then hostCall0 f input st
       else if N = 1 ∧ st.lenV argsV = 0 then hostCall1 f input st
       else if st.lenV argsV = N then natDispatch N f input argsV st
       else .err (.error (.argumentNotValid pos
         (if st.lenV argsV < N then st.lenV argsV + 1 else N + 1) nm))) := by
  unfold applyFunction
  cases hk : st.getKind procV <;> rw [hk] at hnat <;>
    simp only [natArity] at hnat <;> try exact Option.noConfusion hnat
  case nativeFn0 nm' f' =>
    obtain ⟨hN, hnm, hf⟩ : 0 = N ∧ nm' = nm ∧ f' = f := by
      simpa using hnat
    subst hN; subst hnm; subst hf
    simp
  case nativeFn1 nm' f' =>
    obtain ⟨hN, hnm, hf⟩ : 1 = N ∧ nm' = nm ∧ f' = f := by
      simpa using hnat
    subst hN; subst hnm; subst hf
    rcases hlen : st.lenV argsV with _ | _ | k <;> simp [hlen, natDispatch] <;>
      (try (split <;> omega))
  case nativeFn2 nm' f' =>
    obtain ⟨hN, hnm, hf⟩ : 2 = N ∧ nm' = nm ∧ f' = f := by
      simpa using hnat
    subst hN; subst hnm; subst hf
    rcases hlen : st.lenV argsV with _ | _ | _ | k <;> simp [hlen, natDispatch] <;>
      (try (split <;> omega))
  case nativeFn3 nm' f' =>
    obtain ⟨hN, hnm, hf⟩ : 3 = N ∧ nm' = nm ∧ f' = f := by
      simpa using hnat
    subst hN; subst hnm; subst hf
    rcases hlen : st.lenV argsV with _ | _ | _ | _ | k <;> simp [hlen, natDispatch] <;>
      (try (split <;> omega))

/-- C9 (witness for the amended theorem): an arity-2 native function
applied to one evaluated argument fails with position 2. -/
theorem c9_native_arity_witness :
    natArity (c9St2.getKind 1) = some (2, "app", HostFn.appendfn) ∧
    applyFunction (evaluate 1) 0 0 1 3 0 c9St2 =
      (if (2 : Nat) = 0 then hostCall0 .appendfn 0 c9St2
       else if (2 : Nat) = 1 ∧ c9St2.lenV 3 = 0 then hostCall1 .appendfn 0 c9St2
       else if c9St2.lenV 3 = 2 then natDispatch 2 .appendfn 0 3 c9St2
       else .err (.error (.argumentNotValid 0
         (if c9St2.lenV 3 < 2 then c9St2.lenV 3 + 1 else 2 + 1) "app"))) :=
  ⟨rfl, c9_native_arity (evaluate 1) 0 0 1 3 0 c9St2 2 "app" .appendfn rfl⟩

end JsonataRust
